import Mathlib

/-!
Verification development for the autoFbot repository (Telegram channel
cloning bot).  The Python sources `forwarder.py`, `user_client.py`,
`database.py` and `bot.py` are shallowly embedded below: pure code becomes
Lean functions, stateful code becomes explicit state passing, and external
effects (Telegram RPC calls, MongoDB reads) are passed in as explicit
outcome parameters.  Exceptions raised by external calls are modelled with
`Except`/outcome inductives; the side effects the engine performs (calls to
`copy_message`, sleeps, progress-callback invocations, database writes) are
collected into an explicit event trace.
-/

namespace AutoFbot

/-! ## Link parser (`forwarder.parse_telegram_link`)

The Python function matches five forms with `re.match`, i.e. each regex is
anchored at the start of the string but NOT at the end.  We embed the exact
prefix-matching semantics over `List Char`.  The regex classes `[a-zA-Z]`,
`\d`, `[a-zA-Z0-9_]` are modelled over ASCII (the Python `re` module on
`str` additionally accepts non-ASCII Unicode digits; those are out of scope
here, as is Python's acceptance of non-ASCII digits in `int()`).
-/

def isAsciiAlpha (c : Char) : Bool :=
  (('a' ≤ c && c ≤ 'z') || ('A' ≤ c && c ≤ 'Z'))

def isAsciiDigit (c : Char) : Bool :=
  '0' ≤ c && c ≤ '9'

/-- The regex class `[a-zA-Z0-9_]`. -/
def isWordChar (c : Char) : Bool :=
  isAsciiAlpha c || isAsciiDigit c || c == '_'

/-- The regex class `[a-zA-Z0-9]`. -/
def isAlnumChar (c : Char) : Bool :=
  isAsciiAlpha c || isAsciiDigit c

/-- Python `str.strip` whitespace (ASCII part). -/
def isPyWs (c : Char) : Bool :=
  c == ' ' || c == '\t' || c == '\n' || c == '\r' ||
    c == (Char.ofNat 11) || c == (Char.ofNat 12)

/-- `link.strip()` from the first line of `parse_telegram_link`. -/
def pyStrip (cs : List Char) : List Char :=
  ((cs.dropWhile isPyWs).reverse.dropWhile isPyWs).reverse

/-- Numeric value of a digit string, as produced by Python `int` on it. -/
def digitsToNat (cs : List Char) : Nat :=
  cs.foldl (fun acc c => acc * 10 + (c.toNat - '0'.toNat)) 0

/-- Match a literal character sequence at the start of the input, returning
the remainder on success.  Used to embed the literal parts of the regexes. -/
def stripLit : List Char → List Char → Option (List Char)
  | [], cs => some cs
  | _ :: _, [] => none
  | p :: ps, c :: cs => if p = c then stripLit ps cs else none

/-- The optional scheme `(?:https?://)?` at the start of patterns 1 and 2. -/
def stripScheme (cs : List Char) : List Char :=
  match stripLit "https://".toList cs with
  | some rest => rest
  | none =>
    match stripLit "http://".toList cs with
    | some rest => rest
    | none => cs

/-- Pattern 1, `(?:https?://)?t\.me/c/(\d+)/(\d+)` under `re.match`
(prefix semantics: trailing characters after the match are ignored).
On success the channel id is `int("-100" + group1)` and the message id
`int(group2)`. -/
def matchPrivate (cs0 : List Char) : Option (Int × Int) :=
  let cs := stripScheme cs0
  match stripLit "t.me/c/".toList cs with
  | none => none
  | some rest =>
    match rest.span isAsciiDigit with
    | ([], _) => none
    | (d1, r1) =>
      match r1 with
      | '/' :: r2 =>
        match r2.span isAsciiDigit with
        | ([], _) => none
        | (d2, _) =>
          some (-(Int.ofNat (digitsToNat ("100".toList ++ d1))),
                Int.ofNat (digitsToNat d2))
      | _ => none

/-- The shared username-plus-message-id tail
`([a-zA-Z][a-zA-Z0-9_]{3,30}[a-zA-Z0-9])/(\d+)` of patterns 2 and 3.
Because the character after the username group must be `/`, which is not a
word character, backtracking forces the username group to be exactly the
maximal word-character run, of length 5 to 32, starting with a letter and
ending with a letter or digit. -/
def matchUserSeq (cs : List Char) : Option (String × Int) :=
  match cs.span isWordChar with
  | (w, r1) =>
    match w.head?, w.getLast?, r1 with
    | some h, some l, '/' :: r2 =>
      if isAsciiAlpha h && isAlnumChar l && decide (5 ≤ w.length) &&
          decide (w.length ≤ 32) then
        match r2.span isAsciiDigit with
        | ([], _) => none
        | (d, _) => some (String.mk w, Int.ofNat (digitsToNat d))
      else none
    | _, _, _ => none

/-- Pattern 2, `(?:https?://)?t\.me/USERNAME/(\d+)` under `re.match`. -/
def matchPublic (cs0 : List Char) : Option (String × Int) :=
  let cs := stripScheme cs0
  match stripLit "t.me/".toList cs with
  | none => none
  | some rest => matchUserSeq rest

/-- Pattern 3, `@USERNAME/(\d+)` under `re.match`. -/
def matchAt (cs : List Char) : Option (String × Int) :=
  match cs with
  | '@' :: rest => matchUserSeq rest
  | _ => none

/-- Pattern 4, `(-?\d+)/(\d+)` under `re.match`. -/
def matchIdForm (cs : List Char) : Option (Int × Int) :=
  let signAndRest : Bool × List Char :=
    match cs with
    | '-' :: r => (true, r)
    | _ => (false, cs)
  match (signAndRest.2).span isAsciiDigit with
  | ([], _) => none
  | (d1, r1) =>
    match r1 with
    | '/' :: r2 =>
      match r2.span isAsciiDigit with
      | ([], _) => none
      | (d2, _) =>
        let n : Int := Int.ofNat (digitsToNat d1)
        some (if signAndRest.1 then -n else n, Int.ofNat (digitsToNat d2))
    | _ => none

/-- Tail of a Python integer literal body: digits with single underscores
allowed between digits (`int("1_000") = 1000`). -/
def pyIntDigitTail : List Char → Bool
  | [] => true
  | '_' :: rest =>
    match rest with
    | c :: rest2 => isAsciiDigit c && pyIntDigitTail rest2
    | [] => false
  | c :: rest => isAsciiDigit c && pyIntDigitTail rest

/-- Pattern 5, `int(link)`: the whole (already stripped) string must be a
valid Python integer literal, an optional sign followed by digits with
optional single underscores between digits. -/
def pyIntOpt (cs : List Char) : Option Int :=
  let signAndRest : Int × List Char :=
    match cs with
    | '+' :: r => (1, r)
    | '-' :: r => (-1, r)
    | _ => (1, cs)
  match signAndRest.2 with
  | [] => none
  | c :: rest =>
    if isAsciiDigit c && pyIntDigitTail rest then
      some (signAndRest.1 *
        Int.ofNat (digitsToNat ((c :: rest).filter isAsciiDigit)))
    else none

/-- A channel reference: numeric id or public username. -/
inductive ChanRef where
  | cid (channelId : Int)
  | uname (username : String)
deriving DecidableEq

/-- `forwarder.parse_telegram_link`: strip the input, try the five forms in
order, first match wins; `(None, None)` — here `(none, none)` — if all fail. -/
def parse_telegram_link (link : String) : Option ChanRef × Option Int :=
  let cs := pyStrip link.toList
  match matchPrivate cs with
  | some (c, m) => (some (ChanRef.cid c), some m)
  | none =>
    match matchPublic cs with
    | some (u, m) => (some (ChanRef.uname u), some m)
    | none =>
      match matchAt cs with
      | some (u, m) => (some (ChanRef.uname u), some m)
      | none =>
        match matchIdForm cs with
        | some (c, m) => (some (ChanRef.cid c), some m)
        | none =>
          match pyIntOpt cs with
          | some n => (none, some n)
          | none => (none, none)

end AutoFbot


namespace AutoFbot

/-! ## Cloning engine (`forwarder.MessageForwarder`)

`clone_channel` and `clone_range` share a textually identical replication
loop (forwarder.py lines 226-267 and 357-392); the only difference is that
the full-clone loop also calls `db.update_last_message_id` after each
success.  The loop is embedded once, as `replication_loop`, with the
boolean `updateDb` selecting between the two copies.

External behaviour is supplied explicitly:
* `history` is the message list produced by `client.get_chat_history`
  (newest first, as the Telegram API paginates);
* `beh : Int → CopyBehavior` gives, per message id, the `FloodWait`s raised
  by `client.copy_message` followed by its final outcome — `copy_message`
  retries the same message after sleeping each wait (forwarder.py 160-166);
* the progress callback is a `Sink`; `f t = some e` models the callback
  raising an exception with text `e` when invoked on `t` (an exception the
  engine's own `try` block then catches at forwarder.py 277-283 / 402-408).

Side effects are recorded in an `Event` trace. -/

/-- A message as seen by the engine: its id and the `empty` / `service`
flags tested at forwarder.py 228 / 359. -/
structure MsgItem where
  id : Int
  empty : Bool
  service : Bool
deriving DecidableEq

/-- Final (post-FloodWait-retries) outcome of `client.copy_message`:
success with the new message id, `ChatForwardsRestricted`, or another
`RPCError` with its text (forwarder.py 151-170). -/
inductive CopyFinal where
  | ok (newMessageId : Int)
  | forwardingRestricted
  | rpcError (msg : String)
deriving DecidableEq

/-- What `client.copy_message` does for one message: a (possibly empty)
sequence of `FloodWait` values, each retried after sleeping exactly that
many seconds, then a final outcome. -/
structure CopyBehavior where
  floodWaits : List Nat
  final : CopyFinal
deriving DecidableEq

/-- Observable side effects of the engine, in order.  `copyMessage` is
recorded once per replication-loop invocation of
`MessageForwarder.copy_message` (forwarder.py 232 / 363); `sleepFlood` is
the `asyncio.sleep(e.value)` inside the FloodWait retry; `sleepDelay` is
the fixed `asyncio.sleep(self.delay_between_messages)` after an item;
`progress` is an invocation of the progress callback with the given text;
`dbUpdateLastMsg` is `db.update_last_message_id` (forwarder.py 242-246). -/
inductive Event where
  | copyMessage (src dst mid : Int)
  | sleepFlood (seconds : Nat)
  | sleepDelay
  | progress (text : String)
  | dbUpdateLastMsg (src user mid : Int)
deriving DecidableEq

/-- `self.delay_between_messages = 1.5` (forwarder.py 73).  `sleepDelay`
events stand for sleeping exactly this long. -/
def delay_between_messages : ℚ := 3 / 2

/-- A progress callback: `some e` means the call raised an exception with
text `e`; `none` means it returned normally. -/
abbrev Sink := String → Option String

/-- The `stats` dictionary threaded through both loops
(forwarder.py 198-204 / 310-318, minus the range-only start/end keys). -/
structure Stats where
  total : Nat
  success : Nat
  failed : Nat
  skipped : Nat
  errors : List String
deriving DecidableEq

/-- Return value of `clone_channel`: the stats dictionary, the optional
`error` key and the `aborted` key (absent is modelled as `false`), plus the
recorded event trace. -/
structure CloneResult where
  stats : Stats
  error : Option String
  aborted : Bool
  events : List Event
deriving DecidableEq

/-- Return value of `clone_range`: same as `CloneResult` plus the
`start_id` / `end_id` keys, which hold the ORIGINAL arguments (they are
stored at forwarder.py 316-317, before the swap at 320-322). -/
structure RangeResult where
  stats : Stats
  startId : Int
  endId : Int
  error : Option String
  aborted : Bool
  events : List Event
deriving DecidableEq

/-- `message.empty or message.service` (forwarder.py 228 / 359). -/
def isSkipMsg (m : MsgItem) : Bool := m.empty || m.service

/-- The abort message at forwarder.py 251 / 376 (the source file's literal
bytes, mojibake included). -/
def restrictedAbortMsg : String :=
  "‚ùå Channel has forwarding restricted. Cannot clone."

/-- The `f"‚ùå Error: {str(e)}"` message of the generic exception handler
(forwarder.py 281 / 406). -/
def genericErrorText (e : String) : String := "‚ùå Error: " ++ e

/-- The per-10-messages progress text (forwarder.py 262-264 / 387-389). -/
def progressText (iPlus1 total succ fail skip : Nat) : String :=
  "üì§ Progress: " ++ toString iPlus1 ++ "/" ++ toString total ++
    " (‚úÖ " ++ toString succ ++ " | ‚ùå " ++ toString fail ++
    " | ‚è≠Ô∏è " ++ toString skip ++ ")"

/-- Pre-loop progress text of `clone_channel` (forwarder.py 223). -/
def foundText (n : Nat) : String :=
  "üìä Found " ++ toString n ++ " messages to clone..."

/-- First pre-loop progress text of `clone_range` (forwarder.py 329). -/
def fetchingText (s e : Int) : String :=
  "üîç Fetching messages from " ++ toString s ++ " to " ++ toString e ++ "..."

/-- Second pre-loop progress text of `clone_range` (forwarder.py 354). -/
def foundRangeText (n : Nat) (s e : Int) : String :=
  "üìä Found " ++ toString n ++ " messages to clone (IDs " ++ toString s ++
    " - " ++ toString e ++ ")..."

/-- The empty-range abort message (forwarder.py 349). -/
def noMessagesMsg : String := "‚ùå No messages found in the specified range."

/-- The progress-callback step after an item (forwarder.py 259-264 /
384-389): if a callback exists and `(i + 1) % 10 == 0`, it is invoked on
the progress text; the result records the text and whether the call
raised. -/
def progressStep (sink : Option Sink) (i : Nat) (s1 : Stats) :
    Option (String × Option String) :=
  match sink with
  | some f =>
    if (i + 1) % 10 == 0 then
      let t := progressText (i + 1) s1.total s1.success s1.failed s1.skipped
      some (t, f t)
    else none
  | none => none

/-- The tail of one loop iteration after the item's counters were updated:
the progress step, then `asyncio.sleep(self.delay_between_messages)`
(forwarder.py 259-267 / 384-392), then the rest of the loop (`r`).  If the
progress callback raises, the exception propagates to the enclosing
`except Exception` handler (forwarder.py 277-283 / 402-408), which returns
`{**stats, "error": f"‚ùå Error: {e}", "aborted": True}` — discarding the
rest of the loop. -/
def afterItem (sink : Option Sink) (i : Nat) (s1 : Stats)
    (evs1 : List Event) (r : CloneResult) : CloneResult :=
  match progressStep sink i s1 with
  | some (t, some e) =>
    { stats := s1, error := some (genericErrorText e), aborted := true,
      events := evs1 ++ [Event.progress t] }
  | some (t, none) =>
    { r with events := evs1 ++ Event.progress t :: Event.sleepDelay :: r.events }
  | none =>
    { r with events := evs1 ++ Event.sleepDelay :: r.events }

/-- The shared replication loop over the collected, oldest-first message
list (forwarder.py 226-267 and 357-392; `updateDb = true` selects the
full-clone copy, which persists the high-water mark on success). -/
def replication_loop (updateDb : Bool) (sink : Option Sink)
    (beh : Int → CopyBehavior) (src dst user : Int) :
    List MsgItem → Nat → Stats → CloneResult
  | [], _, s => { stats := s, error := none, aborted := false, events := [] }
  | m :: rest, i, s =>
    if isSkipMsg m then
      replication_loop updateDb sink beh src dst user rest (i + 1)
        { s with skipped := s.skipped + 1 }
    else
      let b := beh m.id
      let copyEvs :=
        Event.copyMessage src dst m.id :: b.floodWaits.map Event.sleepFlood
      match b.final with
      | CopyFinal.forwardingRestricted =>
        { stats := { s with failed := s.failed + 1 },
          error := some restrictedAbortMsg, aborted := true,
          events := copyEvs }
      | CopyFinal.ok _ =>
        let s1 := { s with success := s.success + 1 }
        let evs1 :=
          if updateDb then copyEvs ++ [Event.dbUpdateLastMsg src user m.id]
          else copyEvs
        afterItem sink i s1 evs1
          (replication_loop updateDb sink beh src dst user rest (i + 1) s1)
      | CopyFinal.rpcError msg =>
        let errors2 :=
          if s.errors.length < 5 then
            s.errors ++ ["Message " ++ toString m.id ++ ": " ++ msg]
          else s.errors
        let s1 := { s with failed := s.failed + 1, errors := errors2 }
        afterItem sink i s1 copyEvs
          (replication_loop updateDb sink beh src dst user rest (i + 1) s1)

/-- Collection phase of `clone_channel` (forwarder.py 210-216): keep the
paginated history, dropping `message.id <= start_from_message_id` when
`start_from_message_id` is truthy (nonzero). -/
def collectChannel (startFrom : Int) (history : List MsgItem) : List MsgItem :=
  history.filter (fun m => if startFrom ≠ 0 ∧ m.id ≤ startFrom then false else true)

/-- Collection phase of `clone_range` (forwarder.py 332-340): walk the
paginated history, stop at the first id below `startId`, keep ids at most
`endId`. -/
def collectRange (startId endId : Int) : List MsgItem → List MsgItem
  | [] => []
  | m :: rest =>
    if m.id < startId then []
    else if m.id ≤ endId then m :: collectRange startId endId rest
    else collectRange startId endId rest

/-- `MessageForwarder.clone_channel` (forwarder.py 172-283).  `history` is
the output of `client.get_chat_history(source, limit=limit)`, newest
first.  The pagination itself and the access checks done by the callers
are outside this function in the source as well. -/
def clone_channel (history : List MsgItem) (beh : Int → CopyBehavior)
    (src dst user : Int) (sink : Option Sink) (startFrom : Int) : CloneResult :=
  let msgs := (collectChannel startFrom history).reverse
  let s0 : Stats := ⟨msgs.length, 0, 0, 0, []⟩
  match sink with
  | some f =>
    let t := foundText msgs.length
    match f t with
    | some e =>
      { stats := s0, error := some (genericErrorText e), aborted := true,
        events := [Event.progress t] }
    | none =>
      let r := replication_loop true (some f) beh src dst user msgs 0 s0
      { r with events := Event.progress t :: r.events }
  | none => replication_loop true none beh src dst user msgs 0 s0

/-- Body of `clone_range` after the initial `progress_callback` call
(forwarder.py 331-394): collect the in-range messages, reverse, abort when
empty, announce, then run the loop (without db updates).  `evs0` carries
the events already emitted. -/
def clone_range_core (history : List MsgItem) (beh : Int → CopyBehavior)
    (src dst : Int) (startArg endArg startId endId : Int) (user : Int)
    (sink : Option Sink) (evs0 : List Event) : RangeResult :=
  let msgs := (collectRange startId endId history).reverse
  let s0 : Stats := ⟨msgs.length, 0, 0, 0, []⟩
  if msgs.length = 0 then
    { stats := s0, startId := startArg, endId := endArg,
      error := some noMessagesMsg, aborted := true, events := evs0 }
  else
    match sink with
    | some f =>
      let t2 := foundRangeText msgs.length startId endId
      match f t2 with
      | some e =>
        { stats := s0, startId := startArg, endId := endArg,
          error := some (genericErrorText e), aborted := true,
          events := evs0 ++ [Event.progress t2] }
      | none =>
        let r := replication_loop false (some f) beh src dst user msgs 0 s0
        { stats := r.stats, startId := startArg, endId := endArg,
          error := r.error, aborted := r.aborted,
          events := evs0 ++ Event.progress t2 :: r.events }
    | none =>
      let r := replication_loop false none beh src dst user msgs 0 s0
      { stats := r.stats, startId := startArg, endId := endArg,
        error := r.error, aborted := r.aborted, events := evs0 ++ r.events }

/-- `MessageForwarder.clone_range` (forwarder.py 285-408).  The bounds are
swapped when given in the wrong order (forwarder.py 320-322) — after the
original arguments were stored in the stats dictionary.  `history` is the
output of `client.get_chat_history(source, offset_id=end+1, ...)`. -/
def clone_range (history : List MsgItem) (beh : Int → CopyBehavior)
    (src dst : Int) (startArg endArg : Int) (user : Int)
    (sink : Option Sink) : RangeResult :=
  let startId := if startArg > endArg then endArg else startArg
  let endId := if startArg > endArg then startArg else endArg
  match sink with
  | some f =>
    let t1 := fetchingText startId endId
    match f t1 with
    | some e =>
      { stats := ⟨0, 0, 0, 0, []⟩, startId := startArg, endId := endArg,
        error := some (genericErrorText e), aborted := true,
        events := [Event.progress t1] }
    | none =>
      clone_range_core history beh src dst startArg endArg startId endId user
        (some f) [Event.progress t1]
  | none =>
    clone_range_core history beh src dst startArg endArg startId endId user
      none []

/-- Item classification used in the statements about the loop: an item the
loop skips (empty or service). -/
def isOkItem (beh : Int → CopyBehavior) (m : MsgItem) : Bool :=
  !isSkipMsg m &&
    (match (beh m.id).final with | CopyFinal.ok _ => true | _ => false)

/-- Item whose final copy outcome is a non-restricted `RPCError`. -/
def isErrItem (beh : Int → CopyBehavior) (m : MsgItem) : Bool :=
  !isSkipMsg m &&
    (match (beh m.id).final with | CopyFinal.rpcError _ => true | _ => false)

/-- Item on which `copy_message` reports `forwarding_restricted`. -/
def isRestrictedItem (beh : Int → CopyBehavior) (m : MsgItem) : Bool :=
  !isSkipMsg m &&
    (match (beh m.id).final with
     | CopyFinal.forwardingRestricted => true
     | _ => false)

/-- Ids of the `copyMessage` events of a trace, in order. -/
def copyIds (evs : List Event) : List Int :=
  evs.filterMap (fun e =>
    match e with
    | Event.copyMessage _ _ mid => some mid
    | _ => none)

/-- Recognizer for the fixed inter-item delay event. -/
def isDelay : Event → Bool
  | Event.sleepDelay => true
  | _ => false

/-- Number of fixed inter-item delays in a trace. -/
def countDelay (evs : List Event) : Nat := evs.countP isDelay

end AutoFbot

namespace AutoFbot

/-! ## Session authentication state machine and pool
(`user_client.UserClientManager`)

The manager's mutable attributes `active_clients` and `pending_logins`
become a `UCState`; transport handles (`pyrogram.Client` objects) are
identified by numeric ids handed out from `nextClientId`.  The outcomes of
the platform calls (`connect`, `send_code`, `sign_in`, `check_password`,
`export_session_string`, client construction and `start`) are explicit
parameters; connection-level side effects are traced as `UEvent`s. -/

/-- One entry of `self.pending_logins` (user_client.py 64-69): the scoped
connection, the phone number, the `phone_code_hash` challenge token and the
`step` marker (`"otp"` or `"2fa"`). -/
structure PendingLogin where
  clientId : Nat
  phone_number : String
  phone_code_hash : String
  step : String
deriving DecidableEq

/-- Connection-level side effects of the manager. -/
inductive UEvent where
  | connect (clientId : Nat)
  | sendCode (clientId : Nat) (phone : String)
  | disconnect (clientId : Nat)
  | stop (clientId : Nat)
deriving DecidableEq

/-- The manager's mutable state: `self.active_clients`,
`self.pending_logins` (user_client.py 26-27) and a supply of fresh
connection ids. -/
structure UCState where
  active_clients : Int → Option Nat
  pending_logins : Int → Option PendingLogin
  nextClientId : Nat

/-- Outcome of `client.send_code` (user_client.py 61): success with the
`phone_code_hash`, a `FloodWait`, or another exception. -/
inductive SendCodeOutcome where
  | ok (phone_code_hash : String)
  | floodWait (seconds : Nat)
  | err (msg : String)
deriving DecidableEq

/-- Outcome of `client.sign_in` (user_client.py 103-107). -/
inductive SignInOutcome where
  | ok
  | sessionPasswordNeeded
  | phoneCodeInvalid
  | phoneCodeExpired
  | err (msg : String)
deriving DecidableEq

/-- Outcome of `client.check_password` (user_client.py 171): success,
`BadRequest` (invalid password), or another exception. -/
inductive CheckPwOutcome where
  | ok
  | badRequest (msg : String)
  | err (msg : String)
deriving DecidableEq

/-- Result dictionary returned by the login operations: the `success` key
plus the optional `step`, `message` and `error` keys. -/
structure OpResult where
  success : Bool
  step : Option String
  message : Option String
  error : Option String
deriving DecidableEq

/-- The `"No pending login found. Please start with /login first."` error
of `verify_otp` (user_client.py 94). -/
def noPendingOtpMsg : String :=
  "No pending login found. Please start with /login first."

/-- The `"No pending login found."` error of `verify_2fa`
(user_client.py 157). -/
def noPending2faMsg : String := "No pending login found."

/-- `UserClientManager.initiate_login` (user_client.py 47-87): construct a
fresh scoped client, `connect`, `send_code`; on success store the pending
record keyed by user (overwriting any previous entry) in step `"otp"`. -/
def initiate_login (st : UCState) (connectOutcome : Except String Unit)
    (sendCode : SendCodeOutcome) (user : Int) (phone : String) :
    OpResult × UCState × List UEvent :=
  let cid := st.nextClientId
  let st1 := { st with nextClientId := cid + 1 }
  match connectOutcome with
  | Except.error e =>
    ({ success := false, step := none, message := none, error := some e },
     st1, [])
  | Except.ok _ =>
    match sendCode with
    | SendCodeOutcome.ok h =>
      ({ success := true, step := some "otp",
         message := some ("OTP sent to " ++ phone ++
           ". Please enter the OTP code."), error := none },
       { st1 with pending_logins := fun u =>
           if u = user then some ⟨cid, phone, h, "otp"⟩
           else st.pending_logins u },
       [UEvent.connect cid, UEvent.sendCode cid phone])
    | SendCodeOutcome.floodWait v =>
      ({ success := false, step := none, message := none,
         error := some ("Too many attempts. Please wait " ++ toString v ++
           " seconds.") },
       st1, [UEvent.connect cid])
    | SendCodeOutcome.err e =>
      ({ success := false, step := none, message := none, error := some e },
       st1, [UEvent.connect cid])

/-- `UserClientManager.verify_otp` (user_client.py 89-150).  `exportO` is
the outcome of `client.export_session_string`; a failure there (or in any
later statement of the `try` block) is caught by the generic handler with
the pending record retained.  `db.save_user_session` never raises (it
catches internally, database.py 68-87) and its boolean result is ignored
by the caller, so it does not appear here. -/
def verify_otp (st : UCState) (signIn : SignInOutcome)
    (exportO : Except String String) (user : Int) :
    OpResult × UCState :=
  match st.pending_logins user with
  | none =>
    ({ success := false, step := none, message := none,
       error := some noPendingOtpMsg }, st)
  | some p =>
    match signIn with
    | SignInOutcome.ok =>
      match exportO with
      | Except.ok _ =>
        ({ success := true, step := none,
           message := some ("Login successful! You can now use the bot to " ++
             "forward from channels where you have access."), error := none },
         { st with
           active_clients := fun u =>
             if u = user then some p.clientId else st.active_clients u,
           pending_logins := fun u =>
             if u = user then none else st.pending_logins u })
      | Except.error e =>
        ({ success := false, step := none, message := none, error := some e },
         st)
    | SignInOutcome.sessionPasswordNeeded =>
      ({ success := true, step := some "2fa",
         message := some ("Two-factor authentication is enabled. " ++
           "Please enter your 2FA password."), error := none },
       { st with pending_logins := fun u =>
           if u = user then some { p with step := "2fa" }
           else st.pending_logins u })
    | SignInOutcome.phoneCodeInvalid =>
      ({ success := false, step := none, message := none,
         error := some "Invalid OTP code. Please try again." }, st)
    | SignInOutcome.phoneCodeExpired =>
      ({ success := false, step := none, message := none,
         error := some "OTP code expired. Please start login again with /login." },
       { st with pending_logins := fun u =>
           if u = user then none else st.pending_logins u })
    | SignInOutcome.err e =>
      ({ success := false, step := none, message := none, error := some e },
       st)

/-- `UserClientManager.verify_2fa` (user_client.py 152-200). -/
def verify_2fa (st : UCState) (checkPw : CheckPwOutcome)
    (exportO : Except String String) (user : Int) :
    OpResult × UCState :=
  match st.pending_logins user with
  | none =>
    ({ success := false, step := none, message := none,
       error := some noPending2faMsg }, st)
  | some p =>
    if p.step ≠ "2fa" then
      ({ success := false, step := none, message := none,
         error := some "2FA not required at this step." }, st)
    else
      match checkPw with
      | CheckPwOutcome.ok =>
        match exportO with
        | Except.ok _ =>
          ({ success := true, step := none,
             message := some ("Login successful! You can now use the bot " ++
               "to forward from channels."), error := none },
           { st with
             active_clients := fun u =>
               if u = user then some p.clientId else st.active_clients u,
             pending_logins := fun u =>
               if u = user then none else st.pending_logins u })
        | Except.error e =>
          ({ success := false, step := none, message := none,
             error := some e }, st)
      | CheckPwOutcome.badRequest _ =>
        ({ success := false, step := none, message := none,
           error := some "Invalid 2FA password. Please try again." }, st)
      | CheckPwOutcome.err e =>
        ({ success := false, step := none, message := none, error := some e },
         st)

/-- `UserClientManager.cancel_login` (user_client.py 244-249): disconnect
and drop the pending record if present; silently do nothing otherwise.
The Python function returns `None` either way — there is no result value
and no error channel. -/
def cancel_login (st : UCState) (user : Int) : UCState × List UEvent :=
  match st.pending_logins user with
  | none => (st, [])
  | some p =>
    ({ st with pending_logins := fun u =>
         if u = user then none else st.pending_logins u },
     [UEvent.disconnect p.clientId])

/-- A `users` collection document (database.py 68-96). -/
structure SessionRow where
  phone_number : String
  session_string : String
deriving DecidableEq

/-- `Database.get_user_session` (database.py 89-96): the raw `find_one`
outcome (which may raise) is caught; errors become `None`. -/
def get_user_session (raw : Except String (Option SessionRow)) :
    Option SessionRow :=
  match raw with
  | Except.ok r => r
  | Except.error _ => none

/-- `UserClientManager.start_client_from_session` (user_client.py 29-45):
`constructStart` is the combined outcome of constructing the client from
the session string and `await client.start()`; ANY exception is caught and
turned into `None`, otherwise the client is cached in `active_clients`. -/
def start_client_from_session (st : UCState)
    (constructStart : Except String Nat) (user : Int) :
    Option Nat × UCState :=
  match constructStart with
  | Except.ok cid =>
    (some cid,
     { st with active_clients := fun u =>
         if u = user then some cid else st.active_clients u })
  | Except.error _ => (none, st)

/-- `UserClientManager.get_client` (user_client.py 202-219): return the
cached client if it reports itself connected; otherwise try to restore
from the stored session (a row with a truthy — non-empty — session
string); return `none` in every failure case. -/
def get_client (st : UCState) (isConnected : Nat → Bool)
    (dbRaw : Except String (Option SessionRow))
    (constructStart : Except String Nat) (user : Int) :
    Option Nat × UCState :=
  let restore : Option Nat × UCState :=
    match get_user_session dbRaw with
    | some row =>
      if row.session_string = "" then (none, st)
      else start_client_from_session st constructStart user
    | none => (none, st)
  match st.active_clients user with
  | some c => if isConnected c then (some c, st) else restore
  | none => restore

/-! ## Bot command surface and settings storage (`bot.py`, `database.py`) -/

/-- A `user_settings` document; `destination_channel_id` is optional to
model `settings.get("destination_channel_id", 0)` (database.py 51). -/
structure SettingsRow where
  destination_channel_id : Option Int
deriving DecidableEq

/-- `Database.get_destination` (database.py 46-55): `raw` is the
`find_one` outcome; a missing document or a raised storage error both
yield the integer `0`, the documented "not set" value. -/
def get_destination (raw : Except String (Option SettingsRow)) : Int :=
  match raw with
  | Except.error _ => 0
  | Except.ok none => 0
  | Except.ok (some s) => s.destination_channel_id.getD 0

/-- The document written by `Database.set_destination` (database.py 35-39)
for a given destination id. -/
def set_destination_doc (destination_channel_id : Int) : SettingsRow :=
  ⟨some destination_channel_id⟩

/-- Python truthiness of an `int`. -/
def intTruthy (n : Int) : Bool := !(n == 0)

/-- The destination gate of `clone_command` (bot.py 428-437): the command
proceeds past the destination check iff `destination_channel_id` is
truthy; `if not destination_channel_id` replies "No destination set!" and
returns. -/
def clone_command_dest_ok (destination_channel_id : Int) : Bool :=
  intTruthy destination_channel_id

/-- The destination gate of `crange_command` (bot.py 564-572), identical
test. -/
def crange_command_dest_ok (destination_channel_id : Int) : Bool :=
  intTruthy destination_channel_id

/-- Reply of `login_command` (bot.py 262-298), reduced to its four
branches. -/
inductive LoginCmdReply where
  | alreadyLoggedIn
  | usage
  | otpSent (message : String)
  | failed (error : String)
deriving DecidableEq

/-- Phone normalization of `login_command` (bot.py 283-285):
`phone_number.startswith("+")` is the test whether the first character is
`+`. -/
def normalizePhone (ph : String) : String :=
  if ph.toList.head? = some (Char.ofNat 43) then ph else "+" ++ ph

/-- `login_command` (bot.py 262-298): reject only when `get_client` finds
a usable session ("already logged in"); otherwise normalize the phone and
call `initiate_login` — whatever the `pending_logins` state is. -/
def login_command (st : UCState) (isConnected : Nat → Bool)
    (dbRaw : Except String (Option SessionRow))
    (constructStart : Except String Nat)
    (connectOutcome : Except String Unit) (sendCode : SendCodeOutcome)
    (user : Int) (phoneArg : Option String) :
    LoginCmdReply × UCState × List UEvent :=
  match get_client st isConnected dbRaw constructStart user with
  | (some _, st1) => (LoginCmdReply.alreadyLoggedIn, st1, [])
  | (none, st1) =>
    match phoneArg with
    | none => (LoginCmdReply.usage, st1, [])
    | some ph =>
      let phone := normalizePhone ph
      match initiate_login st1 connectOutcome sendCode user phone with
      | (res, st2, evs) =>
        if res.success then
          (LoginCmdReply.otpSent (res.message.getD ""), st2, evs)
        else
          (LoginCmdReply.failed (res.error.getD "Unknown error"), st2, evs)

end AutoFbot

namespace AutoFbot

/-! ## Helper lemmas about the event-trace observations -/

@[simp] theorem copyIds_nil : copyIds [] = [] := rfl

@[simp] theorem copyIds_cons_copy (src dst mid : Int) (l : List Event) :
    copyIds (Event.copyMessage src dst mid :: l) = mid :: copyIds l := by
  simp [copyIds]

@[simp] theorem copyIds_cons_flood (v : Nat) (l : List Event) :
    copyIds (Event.sleepFlood v :: l) = copyIds l := by
  simp [copyIds]

@[simp] theorem copyIds_cons_delay (l : List Event) :
    copyIds (Event.sleepDelay :: l) = copyIds l := by
  simp [copyIds]

@[simp] theorem copyIds_cons_progress (t : String) (l : List Event) :
    copyIds (Event.progress t :: l) = copyIds l := by
  simp [copyIds]

@[simp] theorem copyIds_cons_db (src user mid : Int) (l : List Event) :
    copyIds (Event.dbUpdateLastMsg src user mid :: l) = copyIds l := by
  simp [copyIds]

@[simp] theorem copyIds_append (l1 l2 : List Event) :
    copyIds (l1 ++ l2) = copyIds l1 ++ copyIds l2 := by
  simp [copyIds]

@[simp] theorem copyIds_flood_map (w : List Nat) :
    copyIds (w.map Event.sleepFlood) = [] := by
  induction w with
  | nil => rfl
  | cons a l ih => simpa using ih

theorem copyIds_of_progress_only (ps : List Event)
    (h : ∀ ev ∈ ps, ∃ t, ev = Event.progress t) : copyIds ps = [] := by
  induction ps with
  | nil => rfl
  | cons ev l ih =>
    obtain ⟨t, rfl⟩ := h ev (by simp)
    simpa using ih (fun x hx => h x (by simp [hx]))

@[simp] theorem countDelay_nil : countDelay [] = 0 := rfl

@[simp] theorem countDelay_cons_copy (src dst mid : Int) (l : List Event) :
    countDelay (Event.copyMessage src dst mid :: l) = countDelay l := by
  simp [countDelay, isDelay, List.countP_cons]

@[simp] theorem countDelay_cons_flood (v : Nat) (l : List Event) :
    countDelay (Event.sleepFlood v :: l) = countDelay l := by
  simp [countDelay, isDelay, List.countP_cons]

@[simp] theorem countDelay_cons_delay (l : List Event) :
    countDelay (Event.sleepDelay :: l) = countDelay l + 1 := by
  simp [countDelay, isDelay, List.countP_cons]

@[simp] theorem countDelay_cons_progress (t : String) (l : List Event) :
    countDelay (Event.progress t :: l) = countDelay l := by
  simp [countDelay, isDelay, List.countP_cons]

@[simp] theorem countDelay_cons_db (src user mid : Int) (l : List Event) :
    countDelay (Event.dbUpdateLastMsg src user mid :: l) = countDelay l := by
  simp [countDelay, isDelay, List.countP_cons]

@[simp] theorem countDelay_append (l1 l2 : List Event) :
    countDelay (l1 ++ l2) = countDelay l1 + countDelay l2 := by
  simp [countDelay, List.countP_append]

@[simp] theorem countDelay_flood_map (w : List Nat) :
    countDelay (w.map Event.sleepFlood) = 0 := by
  induction w with
  | nil => rfl
  | cons a l ih => simpa using ih

theorem countDelay_of_progress_only (ps : List Event)
    (h : ∀ ev ∈ ps, ∃ t, ev = Event.progress t) : countDelay ps = 0 := by
  induction ps with
  | nil => rfl
  | cons ev l ih =>
    obtain ⟨t, rfl⟩ := h ev (by simp)
    simpa using ih (fun x hx => h x (by simp [hx]))

theorem progress_not_mem_flood_map (t : String) (w : List Nat) :
    Event.progress t ∉ w.map Event.sleepFlood := by
  simp

/-- Case analysis of `afterItem`: either the progress step did not raise
(possibly because there is no callback or `(i+1) % 10 ≠ 0`) and the result
is the rest of the loop with the step's events (all of them progress
invocations that returned normally) and the inter-item sleep prepended, or
the callback raised and the loop aborted with the current stats. -/
theorem afterItem_eq (sink : Option Sink) (i : Nat) (s1 : Stats)
    (evs1 : List Event) (r : CloneResult) :
    (∃ ps, afterItem sink i s1 evs1 r =
        { r with events := evs1 ++ ps ++ Event.sleepDelay :: r.events } ∧
        ∀ ev ∈ ps, ∃ t, ev = Event.progress t ∧
          ∀ f, sink = some f → f t = none) ∨
    (∃ t e f, sink = some f ∧ f t = some e ∧
      afterItem sink i s1 evs1 r =
        { stats := s1, error := some (genericErrorText e), aborted := true,
          events := evs1 ++ [Event.progress t] }) := by
  cases sink with
  | none =>
    left
    exact ⟨[], by simp [afterItem, progressStep], by simp⟩
  | some f =>
    cases h10 : ((i + 1) % 10 == 0) with
    | false =>
      left
      exact ⟨[], by simp [afterItem, progressStep, h10], by simp⟩
    | true =>
      cases hf : f (progressText (i + 1) s1.total s1.success s1.failed s1.skipped) with
      | none =>
        left
        refine ⟨[Event.progress (progressText (i + 1) s1.total s1.success s1.failed s1.skipped)],
          by simp [afterItem, progressStep, h10, hf], ?_⟩
        intro ev hev
        simp only [List.mem_singleton] at hev
        subst hev
        exact ⟨_, rfl, fun g hg => by cases hg; exact hf⟩
      | some e =>
        right
        exact ⟨_, e, f, rfl, hf, by simp [afterItem, progressStep, h10, hf]⟩

end AutoFbot

namespace AutoFbot

/-! ## Item classification lemmas -/

theorem isOkItem_of_skip (beh : Int → CopyBehavior) (m : MsgItem)
    (h : isSkipMsg m = true) : isOkItem beh m = false := by
  simp [isOkItem, h]

theorem isErrItem_of_skip (beh : Int → CopyBehavior) (m : MsgItem)
    (h : isSkipMsg m = true) : isErrItem beh m = false := by
  simp [isErrItem, h]

theorem isOkItem_of_ok (beh : Int → CopyBehavior) (m : MsgItem) (nid : Int)
    (h1 : isSkipMsg m = false) (h2 : (beh m.id).final = CopyFinal.ok nid) :
    isOkItem beh m = true := by
  simp [isOkItem, h1, h2]

theorem isErrItem_of_ok (beh : Int → CopyBehavior) (m : MsgItem) (nid : Int)
    (h1 : isSkipMsg m = false) (h2 : (beh m.id).final = CopyFinal.ok nid) :
    isErrItem beh m = false := by
  simp [isErrItem, h1, h2]

theorem isOkItem_of_err (beh : Int → CopyBehavior) (m : MsgItem) (msg : String)
    (h1 : isSkipMsg m = false)
    (h2 : (beh m.id).final = CopyFinal.rpcError msg) :
    isOkItem beh m = false := by
  simp [isOkItem, h1, h2]

theorem isErrItem_of_err (beh : Int → CopyBehavior) (m : MsgItem) (msg : String)
    (h1 : isSkipMsg m = false)
    (h2 : (beh m.id).final = CopyFinal.rpcError msg) :
    isErrItem beh m = true := by
  simp [isErrItem, h1, h2]

theorem isRestrictedItem_true (beh : Int → CopyBehavior) (m : MsgItem)
    (h1 : isSkipMsg m = false)
    (h2 : (beh m.id).final = CopyFinal.forwardingRestricted) :
    isRestrictedItem beh m = true := by
  simp [isRestrictedItem, h1, h2]

/-- The events recorded for one non-skipped item before its outcome is
folded in: one `copyMessage`, the flood sleeps, and (in full-clone mode,
on success) the high-water-mark write.  Its `copyIds` is the item's id. -/
theorem copyIds_item_events (u : Bool) (src dst user mid : Int)
    (fl : List Nat) :
    copyIds (if u then
        (Event.copyMessage src dst mid :: fl.map Event.sleepFlood) ++
          [Event.dbUpdateLastMsg src user mid]
      else Event.copyMessage src dst mid :: fl.map Event.sleepFlood) =
      [mid] := by
  cases u <;> simp

theorem countDelay_item_events (u : Bool) (src dst user mid : Int)
    (fl : List Nat) :
    countDelay (if u then
        (Event.copyMessage src dst mid :: fl.map Event.sleepFlood) ++
          [Event.dbUpdateLastMsg src user mid]
      else Event.copyMessage src dst mid :: fl.map Event.sleepFlood) = 0 := by
  cases u <;> simp

theorem progress_not_mem_item_events (t : String) (u : Bool)
    (src dst user mid : Int) (fl : List Nat) :
    Event.progress t ∉ (if u then
        (Event.copyMessage src dst mid :: fl.map Event.sleepFlood) ++
          [Event.dbUpdateLastMsg src user mid]
      else Event.copyMessage src dst mid :: fl.map Event.sleepFlood) := by
  cases u <;> simp


/-! ## One-step unfolding lemmas for the replication loop -/

theorem replication_loop_nil (updateDb : Bool) (sink : Option Sink)
    (beh : Int → CopyBehavior) (src dst user : Int) (i : Nat) (s : Stats) :
    replication_loop updateDb sink beh src dst user [] i s =
      { stats := s, error := none, aborted := false, events := [] } := rfl

theorem replication_loop_skip_step (updateDb : Bool) (sink : Option Sink)
    (beh : Int → CopyBehavior) (src dst user : Int) (m : MsgItem)
    (rest : List MsgItem) (i : Nat) (s : Stats)
    (h : isSkipMsg m = true) :
    replication_loop updateDb sink beh src dst user (m :: rest) i s =
      replication_loop updateDb sink beh src dst user rest (i + 1)
        { s with skipped := s.skipped + 1 } := by
  simp [replication_loop, h]

theorem replication_loop_restricted_step (updateDb : Bool)
    (sink : Option Sink) (beh : Int → CopyBehavior) (src dst user : Int)
    (m : MsgItem) (rest : List MsgItem) (i : Nat) (s : Stats)
    (h1 : isSkipMsg m = false)
    (h2 : (beh m.id).final = CopyFinal.forwardingRestricted) :
    replication_loop updateDb sink beh src dst user (m :: rest) i s =
      { stats := { s with failed := s.failed + 1 },
        error := some restrictedAbortMsg, aborted := true,
        events := Event.copyMessage src dst m.id ::
          (beh m.id).floodWaits.map Event.sleepFlood } := by
  simp [replication_loop, h1, h2]

theorem replication_loop_ok_step (updateDb : Bool) (sink : Option Sink)
    (beh : Int → CopyBehavior) (src dst user : Int) (m : MsgItem)
    (rest : List MsgItem) (i : Nat) (s : Stats) (nid : Int)
    (h1 : isSkipMsg m = false) (h2 : (beh m.id).final = CopyFinal.ok nid) :
    replication_loop updateDb sink beh src dst user (m :: rest) i s =
      afterItem sink i { s with success := s.success + 1 }
        (if updateDb then
           (Event.copyMessage src dst m.id ::
             (beh m.id).floodWaits.map Event.sleepFlood) ++
             [Event.dbUpdateLastMsg src user m.id]
         else Event.copyMessage src dst m.id ::
           (beh m.id).floodWaits.map Event.sleepFlood)
        (replication_loop updateDb sink beh src dst user rest (i + 1)
          { s with success := s.success + 1 }) := by
  simp [replication_loop, h1, h2]

theorem replication_loop_err_step (updateDb : Bool) (sink : Option Sink)
    (beh : Int → CopyBehavior) (src dst user : Int) (m : MsgItem)
    (rest : List MsgItem) (i : Nat) (s : Stats) (msg : String)
    (h1 : isSkipMsg m = false)
    (h2 : (beh m.id).final = CopyFinal.rpcError msg) :
    replication_loop updateDb sink beh src dst user (m :: rest) i s =
      afterItem sink i
        { s with
          failed := s.failed + 1
          errors := if s.errors.length < 5 then
              s.errors ++ ["Message " ++ toString m.id ++ ": " ++ msg]
            else s.errors }
        (Event.copyMessage src dst m.id ::
          (beh m.id).floodWaits.map Event.sleepFlood)
        (replication_loop updateDb sink beh src dst user rest (i + 1)
          { s with
            failed := s.failed + 1
            errors := if s.errors.length < 5 then
                s.errors ++ ["Message " ++ toString m.id ++ ": " ++ msg]
              else s.errors }) := by
  simp [replication_loop, h1, h2]

end AutoFbot

namespace AutoFbot

/-- Loop lemma for claim C1: if the first item whose copy outcome is
`forwarding_restricted` sits after a prefix `pre` of restriction-free
items, the loop aborts there with the restricted-abort reason, every item
of `pre` counted exactly once, the restricted item counted in `failed`,
and nothing after it replicated. -/
theorem replication_loop_restricted_spec (updateDb : Bool)
    (sink : Option Sink) (beh : Int → CopyBehavior) (src dst user : Int)
    (hsink : ∀ f, sink = some f → ∀ t, f t = none) :
    ∀ (pre : List MsgItem) (m : MsgItem) (post : List MsgItem) (i : Nat)
      (s : Stats),
      (∀ x ∈ pre, isRestrictedItem beh x = false) →
      isSkipMsg m = false →
      (beh m.id).final = CopyFinal.forwardingRestricted →
      ((replication_loop updateDb sink beh src dst user
          (pre ++ m :: post) i s).aborted = true ∧
       (replication_loop updateDb sink beh src dst user
          (pre ++ m :: post) i s).error = some restrictedAbortMsg ∧
       (replication_loop updateDb sink beh src dst user
          (pre ++ m :: post) i s).stats.success =
         s.success + pre.countP (isOkItem beh) ∧
       (replication_loop updateDb sink beh src dst user
          (pre ++ m :: post) i s).stats.failed =
         s.failed + pre.countP (isErrItem beh) + 1 ∧
       (replication_loop updateDb sink beh src dst user
          (pre ++ m :: post) i s).stats.skipped =
         s.skipped + pre.countP isSkipMsg ∧
       copyIds (replication_loop updateDb sink beh src dst user
          (pre ++ m :: post) i s).events =
         (pre.filter (fun x => !isSkipMsg x)).map (fun x => x.id) ++ [m.id]) := by
  intro pre
  induction pre with
  | nil =>
    intro m post i s _ hm hfin
    simp [replication_loop_restricted_step updateDb sink beh src dst user
      m post i s hm hfin]
  | cons x pre2 ih =>
    intro m post i s hpre hm hfin
    have hx := hpre x (by simp)
    have hpre2 : ∀ y ∈ pre2, isRestrictedItem beh y = false :=
      fun y hy => hpre y (by simp [hy])
    rw [List.cons_append]
    by_cases hskip : isSkipMsg x = true
    · rw [replication_loop_skip_step updateDb sink beh src dst user x _ i s
        hskip]
      have h1 := ih m post (i + 1) { s with skipped := s.skipped + 1 }
        hpre2 hm hfin
      refine ⟨h1.1, h1.2.1, ?_, ?_, ?_, ?_⟩
      · rw [h1.2.2.1]
        simp [List.countP_cons, isOkItem_of_skip beh x hskip]
      · rw [h1.2.2.2.1]
        simp [List.countP_cons, isErrItem_of_skip beh x hskip]
      · rw [h1.2.2.2.2.1]
        simp [List.countP_cons, hskip]
        omega
      · rw [h1.2.2.2.2.2]
        simp [List.filter_cons, hskip]
    · have hskipF : isSkipMsg x = false := by
        cases h2 : isSkipMsg x
        · rfl
        · exact absurd h2 hskip
      cases hfin2 : (beh x.id).final with
      | forwardingRestricted =>
        rw [isRestrictedItem_true beh x hskipF hfin2] at hx
        cases hx
      | ok nid =>
        rw [replication_loop_ok_step updateDb sink beh src dst user x _ i s
          nid hskipF hfin2]
        set S := { s with success := s.success + 1 } with hS
        have h1 := ih m post (i + 1) S hpre2 hm hfin
        set R := replication_loop updateDb sink beh src dst user
          (pre2 ++ m :: post) (i + 1) S with hR
        set E := (if updateDb then
            (Event.copyMessage src dst x.id ::
              (beh x.id).floodWaits.map Event.sleepFlood) ++
              [Event.dbUpdateLastMsg src user x.id]
          else Event.copyMessage src dst x.id ::
            (beh x.id).floodWaits.map Event.sleepFlood) with hE
        rcases afterItem_eq sink i S E R with
          (⟨ps, heq, hps⟩ | ⟨t, e, f, hsf, hfe, heq2⟩)
        · rw [heq]
          refine ⟨h1.1, h1.2.1, ?_, ?_, ?_, ?_⟩
          · show R.stats.success = _
            rw [h1.2.2.1, hS]
            simp [List.countP_cons, isOkItem_of_ok beh x nid hskipF hfin2]
            omega
          · show R.stats.failed = _
            rw [h1.2.2.2.1, hS]
            simp [List.countP_cons, isErrItem_of_ok beh x nid hskipF hfin2]
          · show R.stats.skipped = _
            rw [h1.2.2.2.2.1, hS]
            simp [List.countP_cons, hskipF]
          · show copyIds (E ++ ps ++ Event.sleepDelay :: R.events) = _
            rw [copyIds_append, copyIds_append, hE,
              copyIds_item_events updateDb src dst user x.id,
              copyIds_of_progress_only ps
                (fun ev hev => (hps ev hev).imp (fun t2 ht => ht.1)),
              copyIds_cons_delay, h1.2.2.2.2.2]
            simp [List.filter_cons, hskipF]
        · have hnone := hsink f hsf t
          rw [hnone] at hfe
          cases hfe
      | rpcError msg =>
        rw [replication_loop_err_step updateDb sink beh src dst user x _ i s
          msg hskipF hfin2]
        set S := { s with
          failed := s.failed + 1
          errors := if s.errors.length < 5 then
              s.errors ++ ["Message " ++ toString x.id ++ ": " ++ msg]
            else s.errors } with hS
        have h1 := ih m post (i + 1) S hpre2 hm hfin
        set R := replication_loop updateDb sink beh src dst user
          (pre2 ++ m :: post) (i + 1) S with hR
        set E := (Event.copyMessage src dst x.id ::
          (beh x.id).floodWaits.map Event.sleepFlood) with hE
        rcases afterItem_eq sink i S E R with
          (⟨ps, heq, hps⟩ | ⟨t, e, f, hsf, hfe, heq2⟩)
        · rw [heq]
          refine ⟨h1.1, h1.2.1, ?_, ?_, ?_, ?_⟩
          · show R.stats.success = _
            rw [h1.2.2.1, hS]
            simp [List.countP_cons, isOkItem_of_err beh x msg hskipF hfin2]
          · show R.stats.failed = _
            rw [h1.2.2.2.1, hS]
            simp [List.countP_cons, isErrItem_of_err beh x msg hskipF hfin2]
            omega
          · show R.stats.skipped = _
            rw [h1.2.2.2.2.1, hS]
            simp [List.countP_cons, hskipF]
          · show copyIds (E ++ ps ++ Event.sleepDelay :: R.events) = _
            rw [copyIds_append, copyIds_append, hE, copyIds_cons_copy,
              copyIds_flood_map,
              copyIds_of_progress_only ps
                (fun ev hev => (hps ev hev).imp (fun t2 ht => ht.1)),
              copyIds_cons_delay, h1.2.2.2.2.2]
            simp [List.filter_cons, hskipF]
        · have hnone := hsink f hsf t
          rw [hnone] at hfe
          cases hfe

end AutoFbot

namespace AutoFbot

/-- Loop lemma for claim C2: the ids passed to `copy_message` form a
sublist of the ids of the processed list, in processing order. -/
theorem replication_loop_copyIds_sublist (updateDb : Bool)
    (sink : Option Sink) (beh : Int → CopyBehavior) (src dst user : Int) :
    ∀ (ms : List MsgItem) (i : Nat) (s : Stats),
      List.Sublist
        (copyIds (replication_loop updateDb sink beh src dst user ms i s).events)
        (ms.map (fun m => m.id)) := by
  intro ms
  induction ms with
  | nil =>
    intro i s
    simp [replication_loop_nil]
  | cons m rest ih =>
    intro i s
    rw [List.map_cons]
    by_cases hskip : isSkipMsg m = true
    · rw [replication_loop_skip_step updateDb sink beh src dst user m rest
        i s hskip]
      exact (ih (i + 1) _).cons _
    · have hskipF : isSkipMsg m = false := by
        cases h2 : isSkipMsg m
        · rfl
        · exact absurd h2 hskip
      cases hfin : (beh m.id).final with
      | forwardingRestricted =>
        rw [replication_loop_restricted_step updateDb sink beh src dst user
          m rest i s hskipF hfin]
        simp only [copyIds_cons_copy, copyIds_flood_map]
        exact List.Sublist.cons₂ _ (List.nil_sublist _)
      | ok nid =>
        rw [replication_loop_ok_step updateDb sink beh src dst user m rest
          i s nid hskipF hfin]
        set S := { s with success := s.success + 1 } with hS
        set R := replication_loop updateDb sink beh src dst user rest
          (i + 1) S with hR
        set E := (if updateDb then
            (Event.copyMessage src dst m.id ::
              (beh m.id).floodWaits.map Event.sleepFlood) ++
              [Event.dbUpdateLastMsg src user m.id]
          else Event.copyMessage src dst m.id ::
            (beh m.id).floodWaits.map Event.sleepFlood) with hE
        rcases afterItem_eq sink i S E R with
          (⟨ps, heq, hps⟩ | ⟨t, e, f, hsf, hfe, heq2⟩)
        · rw [heq]
          show List.Sublist (copyIds (E ++ ps ++ Event.sleepDelay :: R.events)) _
          rw [copyIds_append, copyIds_append, hE,
            copyIds_item_events updateDb src dst user m.id,
            copyIds_of_progress_only ps
              (fun ev hev => (hps ev hev).imp (fun t2 ht => ht.1)),
            copyIds_cons_delay]
          simpa using List.Sublist.cons₂ m.id (ih (i + 1) S)
        · rw [heq2]
          show List.Sublist (copyIds (E ++ [Event.progress t])) _
          rw [copyIds_append, hE, copyIds_item_events updateDb src dst user m.id]
          exact List.Sublist.cons₂ m.id (List.nil_sublist _)
      | rpcError msg =>
        rw [replication_loop_err_step updateDb sink beh src dst user m rest
          i s msg hskipF hfin]
        set S := { s with
          failed := s.failed + 1
          errors := if s.errors.length < 5 then
              s.errors ++ ["Message " ++ toString m.id ++ ": " ++ msg]
            else s.errors } with hS
        set R := replication_loop updateDb sink beh src dst user rest
          (i + 1) S with hR
        set E := (Event.copyMessage src dst m.id ::
          (beh m.id).floodWaits.map Event.sleepFlood) with hE
        rcases afterItem_eq sink i S E R with
          (⟨ps, heq, hps⟩ | ⟨t, e, f, hsf, hfe, heq2⟩)
        · rw [heq]
          show List.Sublist (copyIds (E ++ ps ++ Event.sleepDelay :: R.events)) _
          rw [copyIds_append, copyIds_append, hE, copyIds_cons_copy,
            copyIds_flood_map,
            copyIds_of_progress_only ps
              (fun ev hev => (hps ev hev).imp (fun t2 ht => ht.1)),
            copyIds_cons_delay]
          simpa using List.Sublist.cons₂ m.id (ih (i + 1) S)
        · rw [heq2]
          show List.Sublist (copyIds (E ++ [Event.progress t])) _
          rw [copyIds_append, hE, copyIds_cons_copy, copyIds_flood_map]
          exact List.Sublist.cons₂ m.id (List.nil_sublist _)

/-- Loop lemma for claim C3: if the loop finished without aborting, then
every progress-callback invocation it performed returned normally.
Contrapositive: a callback that raises on a reached invocation always
aborts the loop. -/
theorem replication_loop_sink_ok_of_not_aborted (updateDb : Bool)
    (sink : Option Sink) (beh : Int → CopyBehavior) (src dst user : Int) :
    ∀ (ms : List MsgItem) (i : Nat) (s : Stats),
      (replication_loop updateDb sink beh src dst user ms i s).aborted =
        false →
      ∀ t, Event.progress t ∈
          (replication_loop updateDb sink beh src dst user ms i s).events →
      ∀ f, sink = some f → f t = none := by
  intro ms
  induction ms with
  | nil =>
    intro i s _ t ht
    rw [replication_loop_nil] at ht
    simp at ht
  | cons m rest ih =>
    intro i s
    by_cases hskip : isSkipMsg m = true
    · rw [replication_loop_skip_step updateDb sink beh src dst user m rest
        i s hskip]
      exact ih (i + 1) _
    · have hskipF : isSkipMsg m = false := by
        cases h2 : isSkipMsg m
        · rfl
        · exact absurd h2 hskip
      cases hfin : (beh m.id).final with
      | forwardingRestricted =>
        rw [replication_loop_restricted_step updateDb sink beh src dst user
          m rest i s hskipF hfin]
        intro hab
        simp at hab
      | ok nid =>
        rw [replication_loop_ok_step updateDb sink beh src dst user m rest
          i s nid hskipF hfin]
        set S := { s with success := s.success + 1 } with hS
        set R := replication_loop updateDb sink beh src dst user rest
          (i + 1) S with hR
        set E := (if updateDb then
            (Event.copyMessage src dst m.id ::
              (beh m.id).floodWaits.map Event.sleepFlood) ++
              [Event.dbUpdateLastMsg src user m.id]
          else Event.copyMessage src dst m.id ::
            (beh m.id).floodWaits.map Event.sleepFlood) with hE
        rcases afterItem_eq sink i S E R with
          (⟨ps, heq, hps⟩ | ⟨t, e, f, hsf, hfe, heq2⟩)
        · rw [heq]
          intro hab t ht f hsf
          have hab2 : R.aborted = false := hab
          have ht2 : Event.progress t ∈ E ++ ps ++ Event.sleepDelay :: R.events := ht
          rcases List.mem_append.mp ht2 with h | h
          · rcases List.mem_append.mp h with h2 | h2
            · rw [hE] at h2
              revert h2
              cases updateDb <;> simp
            · obtain ⟨t2, ht2eq, hprop⟩ := hps _ h2
              cases ht2eq
              exact hprop f hsf
          · rcases List.mem_cons.mp h with h2 | h2
            · cases h2
            · exact ih (i + 1) S hab2 t h2 f hsf
        · rw [heq2]
          intro hab
          simp at hab
      | rpcError msg =>
        rw [replication_loop_err_step updateDb sink beh src dst user m rest
          i s msg hskipF hfin]
        set S := { s with
          failed := s.failed + 1
          errors := if s.errors.length < 5 then
              s.errors ++ ["Message " ++ toString m.id ++ ": " ++ msg]
            else s.errors } with hS
        set R := replication_loop updateDb sink beh src dst user rest
          (i + 1) S with hR
        set E := (Event.copyMessage src dst m.id ::
          (beh m.id).floodWaits.map Event.sleepFlood) with hE
        rcases afterItem_eq sink i S E R with
          (⟨ps, heq, hps⟩ | ⟨t, e, f, hsf, hfe, heq2⟩)
        · rw [heq]
          intro hab t ht f hsf
          have hab2 : R.aborted = false := hab
          have ht2 : Event.progress t ∈ E ++ ps ++ Event.sleepDelay :: R.events := ht
          rcases List.mem_append.mp ht2 with h | h
          · rcases List.mem_append.mp h with h2 | h2
            · rw [hE] at h2
              simp at h2
            · obtain ⟨t2, ht2eq, hprop⟩ := hps _ h2
              cases ht2eq
              exact hprop f hsf
          · rcases List.mem_cons.mp h with h2 | h2
            · cases h2
            · exact ih (i + 1) S hab2 t h2 f hsf
        · rw [heq2]
          intro hab
          simp at hab

/-- Loop lemma for claim C7: in a run that does not abort, the number of
fixed inter-item delays equals the number of successes plus failures —
skipped items contribute none. -/
theorem replication_loop_delay_count (updateDb : Bool) (sink : Option Sink)
    (beh : Int → CopyBehavior) (src dst user : Int) :
    ∀ (ms : List MsgItem) (i : Nat) (s : Stats),
      (replication_loop updateDb sink beh src dst user ms i s).aborted =
        false →
      countDelay (replication_loop updateDb sink beh src dst user
          ms i s).events + s.success + s.failed =
        (replication_loop updateDb sink beh src dst user ms i s).stats.success +
        (replication_loop updateDb sink beh src dst user ms i s).stats.failed := by
  intro ms
  induction ms with
  | nil =>
    intro i s _
    rw [replication_loop_nil]
    simp
  | cons m rest ih =>
    intro i s
    by_cases hskip : isSkipMsg m = true
    · rw [replication_loop_skip_step updateDb sink beh src dst user m rest
        i s hskip]
      intro hab
      have h1 := ih (i + 1) { s with skipped := s.skipped + 1 } hab
      simpa using h1
    · have hskipF : isSkipMsg m = false := by
        cases h2 : isSkipMsg m
        · rfl
        · exact absurd h2 hskip
      cases hfin : (beh m.id).final with
      | forwardingRestricted =>
        rw [replication_loop_restricted_step updateDb sink beh src dst user
          m rest i s hskipF hfin]
        intro hab
        simp at hab
      | ok nid =>
        rw [replication_loop_ok_step updateDb sink beh src dst user m rest
          i s nid hskipF hfin]
        set S := { s with success := s.success + 1 } with hS
        set R := replication_loop updateDb sink beh src dst user rest
          (i + 1) S with hR
        set E := (if updateDb then
            (Event.copyMessage src dst m.id ::
              (beh m.id).floodWaits.map Event.sleepFlood) ++
              [Event.dbUpdateLastMsg src user m.id]
          else Event.copyMessage src dst m.id ::
            (beh m.id).floodWaits.map Event.sleepFlood) with hE
        rcases afterItem_eq sink i S E R with
          (⟨ps, heq, hps⟩ | ⟨t, e, f, hsf, hfe, heq2⟩)
        · rw [heq]
          intro hab
          have hab2 : R.aborted = false := hab
          have h1 := ih (i + 1) S hab2
          rw [← hR] at h1
          have hsucc : S.success = s.success + 1 := by rw [hS]
          have hfail : S.failed = s.failed := by rw [hS]
          show countDelay (E ++ ps ++ Event.sleepDelay :: R.events) + _ + _ =
            R.stats.success + R.stats.failed
          rw [countDelay_append, countDelay_append, hE,
            countDelay_item_events updateDb src dst user m.id,
            countDelay_of_progress_only ps
              (fun ev hev => (hps ev hev).imp (fun t2 ht => ht.1)),
            countDelay_cons_delay]
          omega
        · rw [heq2]
          intro hab
          simp at hab
      | rpcError msg =>
        rw [replication_loop_err_step updateDb sink beh src dst user m rest
          i s msg hskipF hfin]
        set S := { s with
          failed := s.failed + 1
          errors := if s.errors.length < 5 then
              s.errors ++ ["Message " ++ toString m.id ++ ": " ++ msg]
            else s.errors } with hS
        set R := replication_loop updateDb sink beh src dst user rest
          (i + 1) S with hR
        set E := (Event.copyMessage src dst m.id ::
          (beh m.id).floodWaits.map Event.sleepFlood) with hE
        rcases afterItem_eq sink i S E R with
          (⟨ps, heq, hps⟩ | ⟨t, e, f, hsf, hfe, heq2⟩)
        · rw [heq]
          intro hab
          have hab2 : R.aborted = false := hab
          have h1 := ih (i + 1) S hab2
          rw [← hR] at h1
          have hsucc : S.success = s.success := by rw [hS]
          have hfail : S.failed = s.failed + 1 := by rw [hS]
          show countDelay (E ++ ps ++ Event.sleepDelay :: R.events) + _ + _ =
            R.stats.success + R.stats.failed
          rw [countDelay_append, countDelay_append, hE, countDelay_cons_copy,
            countDelay_flood_map,
            countDelay_of_progress_only ps
              (fun ev hev => (hps ev hev).imp (fun t2 ht => ht.1)),
            countDelay_cons_delay]
          omega
        · rw [heq2]
          intro hab
          simp at hab

end AutoFbot

namespace AutoFbot

/-- The range collection keeps a sublist of the paginated history. -/
theorem collectRange_sublist (startId endId : Int) :
    ∀ history : List MsgItem,
      List.Sublist (collectRange startId endId history) history := by
  intro history
  induction history with
  | nil => simp [collectRange]
  | cons m rest ih =>
    rw [collectRange]
    by_cases h1 : m.id < startId
    · rw [if_pos h1]
      exact List.nil_sublist _
    · rw [if_neg h1]
      by_cases h2 : m.id ≤ endId
      · rw [if_pos h2]
        exact List.Sublist.cons₂ m ih
      · rw [if_neg h2]
        exact ih.cons m

/-- The full-clone collection keeps a sublist of the paginated history. -/
theorem collectChannel_sublist (startFrom : Int) (history : List MsgItem) :
    List.Sublist (collectChannel startFrom history) history :=
  List.filter_sublist history

/-- Run decomposition of `clone_channel` under a callback that never
raises: the result is the loop's result with the pre-loop progress
invocation prepended to the trace. -/
theorem clone_channel_run (history : List MsgItem)
    (beh : Int → CopyBehavior) (src dst user : Int) (sink : Option Sink)
    (startFrom : Int) (hsink : ∀ f, sink = some f → ∀ t, f t = none) :
    ∃ ps, clone_channel history beh src dst user sink startFrom =
      { stats := (replication_loop true sink beh src dst user
          ((collectChannel startFrom history).reverse) 0
          ⟨((collectChannel startFrom history).reverse).length, 0, 0, 0, []⟩).stats
        error := (replication_loop true sink beh src dst user
          ((collectChannel startFrom history).reverse) 0
          ⟨((collectChannel startFrom history).reverse).length, 0, 0, 0, []⟩).error
        aborted := (replication_loop true sink beh src dst user
          ((collectChannel startFrom history).reverse) 0
          ⟨((collectChannel startFrom history).reverse).length, 0, 0, 0, []⟩).aborted
        events := ps ++ (replication_loop true sink beh src dst user
          ((collectChannel startFrom history).reverse) 0
          ⟨((collectChannel startFrom history).reverse).length, 0, 0, 0, []⟩).events } ∧
      ∀ ev ∈ ps, ∃ t, ev = Event.progress t := by
  cases sink with
  | none =>
    refine ⟨[], ?_, by simp⟩
    simp [clone_channel]
  | some f =>
    have hf := hsink f rfl (foundText (collectChannel startFrom history).length)
    refine ⟨[Event.progress (foundText
      ((collectChannel startFrom history).reverse).length)], ?_, ?_⟩
    · simp [clone_channel, hf]
    · intro ev hev
      simp only [List.mem_singleton] at hev
      exact ⟨_, hev⟩

/-- Run decomposition of `clone_range` under a callback that never raises,
when the collected range is non-empty. -/
theorem clone_range_run (history : List MsgItem) (beh : Int → CopyBehavior)
    (src dst : Int) (startArg endArg : Int) (user : Int) (sink : Option Sink)
    (hsink : ∀ f, sink = some f → ∀ t, f t = none)
    (hne : collectRange (if startArg > endArg then endArg else startArg)
        (if startArg > endArg then startArg else endArg) history ≠ []) :
    ∃ ps, clone_range history beh src dst startArg endArg user sink =
      { stats := (replication_loop false sink beh src dst user
          ((collectRange (if startArg > endArg then endArg else startArg)
            (if startArg > endArg then startArg else endArg) history).reverse) 0
          ⟨((collectRange (if startArg > endArg then endArg else startArg)
            (if startArg > endArg then startArg else endArg)
            history).reverse).length, 0, 0, 0, []⟩).stats
        startId := startArg
        endId := endArg
        error := (replication_loop false sink beh src dst user
          ((collectRange (if startArg > endArg then endArg else startArg)
            (if startArg > endArg then startArg else endArg) history).reverse) 0
          ⟨((collectRange (if startArg > endArg then endArg else startArg)
            (if startArg > endArg then startArg else endArg)
            history).reverse).length, 0, 0, 0, []⟩).error
        aborted := (replication_loop false sink beh src dst user
          ((collectRange (if startArg > endArg then endArg else startArg)
            (if startArg > endArg then startArg else endArg) history).reverse) 0
          ⟨((collectRange (if startArg > endArg then endArg else startArg)
            (if startArg > endArg then startArg else endArg)
            history).reverse).length, 0, 0, 0, []⟩).aborted
        events := ps ++ (replication_loop false sink beh src dst user
          ((collectRange (if startArg > endArg then endArg else startArg)
            (if startArg > endArg then startArg else endArg) history).reverse) 0
          ⟨((collectRange (if startArg > endArg then endArg else startArg)
            (if startArg > endArg then startArg else endArg)
            history).reverse).length, 0, 0, 0, []⟩).events } ∧
      ∀ ev ∈ ps, ∃ t, ev = Event.progress t := by
  cases sink with
  | none =>
    refine ⟨[], ?_, by simp⟩
    simp [clone_range, clone_range_core, hne]
  | some f =>
    have hf1 := hsink f rfl (fetchingText
      (if startArg > endArg then endArg else startArg)
      (if startArg > endArg then startArg else endArg))
    have hf2 := hsink f rfl (foundRangeText
      (collectRange (if startArg > endArg then endArg else startArg)
        (if startArg > endArg then startArg else endArg) history).length
      (if startArg > endArg then endArg else startArg)
      (if startArg > endArg then startArg else endArg))
    refine ⟨[Event.progress (fetchingText
        (if startArg > endArg then endArg else startArg)
        (if startArg > endArg then startArg else endArg)),
      Event.progress (foundRangeText
        ((collectRange (if startArg > endArg then endArg else startArg)
          (if startArg > endArg then startArg else endArg)
          history).reverse).length
        (if startArg > endArg then endArg else startArg)
        (if startArg > endArg then startArg else endArg))], ?_, ?_⟩
    · simp [clone_range, clone_range_core, hf1, hf2, hne]
    · intro ev hev
      simp only [List.mem_cons, List.mem_singleton] at hev
      rcases hev with h | h
      · exact ⟨_, h⟩
      · rcases h with h | h
        · exact ⟨_, h⟩
        · cases h

end AutoFbot

namespace AutoFbot

/-- Every restriction-free item is counted by exactly one of the three
classifications, so the three counters partition the prefix. -/
theorem countP_partition (beh : Int → CopyBehavior) :
    ∀ pre : List MsgItem,
      (∀ x ∈ pre, isRestrictedItem beh x = false) →
      pre.countP (isOkItem beh) + pre.countP (isErrItem beh) +
        pre.countP isSkipMsg = pre.length := by
  intro pre
  induction pre with
  | nil => simp
  | cons x rest ih =>
    intro hpre
    have hx := hpre x (by simp)
    have hrest := ih (fun y hy => hpre y (by simp [hy]))
    rw [List.length_cons]
    by_cases hskip : isSkipMsg x = true
    · have h1 : ¬ (isOkItem beh x = true) := by
        simp [isOkItem_of_skip beh x hskip]
      have h2 : ¬ (isErrItem beh x = true) := by
        simp [isErrItem_of_skip beh x hskip]
      rw [List.countP_cons_of_neg _ _ h1, List.countP_cons_of_neg _ _ h2,
        List.countP_cons_of_pos _ _ hskip]
      omega
    · have hskipF : isSkipMsg x = false := by
        cases h2 : isSkipMsg x
        · rfl
        · exact absurd h2 hskip
      have hns : ¬ (isSkipMsg x = true) := by simp [hskipF]
      cases hfin : (beh x.id).final with
      | forwardingRestricted =>
        rw [isRestrictedItem_true beh x hskipF hfin] at hx
        cases hx
      | ok nid =>
        have h2 : ¬ (isErrItem beh x = true) := by
          simp [isErrItem_of_ok beh x nid hskipF hfin]
        rw [List.countP_cons_of_pos _ _ (isOkItem_of_ok beh x nid hskipF hfin),
          List.countP_cons_of_neg _ _ h2, List.countP_cons_of_neg _ _ hns]
        omega
      | rpcError msg =>
        have h1 : ¬ (isOkItem beh x = true) := by
          simp [isOkItem_of_err beh x msg hskipF hfin]
        rw [List.countP_cons_of_neg _ _ h1,
          List.countP_cons_of_pos _ _ (isErrItem_of_err beh x msg hskipF hfin),
          List.countP_cons_of_neg _ _ hns]
        omega

/-- C1: if the channel-wide forwarding restriction is first signaled while
replicating the item at (1-based) position `pre.length + 1` of the ordered
message list — in full-clone or range-clone mode — the returned report has
`aborted = true` with a non-empty reason, every item before it contributed
exactly one counter increment, the restricted item is counted in `failed`,
so `succeeded + failed + skipped = pre.length + 1`, and no later item is
replicated. -/
theorem c1_restricted_abort_preserves_counts (history : List MsgItem)
    (beh : Int → CopyBehavior) (src dst user : Int) (sink : Option Sink)
    (startFrom startArg endArg : Int) (pre : List MsgItem) (m : MsgItem)
    (post : List MsgItem)
    (hsink : ∀ f, sink = some f → ∀ t, f t = none)
    (hpre : ∀ x ∈ pre, isRestrictedItem beh x = false)
    (hm1 : isSkipMsg m = false)
    (hm2 : (beh m.id).final = CopyFinal.forwardingRestricted) :
    ((collectChannel startFrom history).reverse = pre ++ m :: post →
      (clone_channel history beh src dst user sink startFrom).aborted = true ∧
      (clone_channel history beh src dst user sink startFrom).error =
        some restrictedAbortMsg ∧ restrictedAbortMsg ≠ "" ∧
      (clone_channel history beh src dst user sink startFrom).stats.success =
        pre.countP (isOkItem beh) ∧
      (clone_channel history beh src dst user sink startFrom).stats.failed =
        pre.countP (isErrItem beh) + 1 ∧
      (clone_channel history beh src dst user sink startFrom).stats.skipped =
        pre.countP isSkipMsg ∧
      (clone_channel history beh src dst user sink startFrom).stats.success +
        (clone_channel history beh src dst user sink startFrom).stats.failed +
        (clone_channel history beh src dst user sink startFrom).stats.skipped =
        pre.length + 1 ∧
      copyIds (clone_channel history beh src dst user sink startFrom).events =
        (pre.filter (fun x => !isSkipMsg x)).map (fun x => x.id) ++ [m.id]) ∧
    ((collectRange (if startArg > endArg then endArg else startArg)
        (if startArg > endArg then startArg else endArg) history).reverse =
          pre ++ m :: post →
      (clone_range history beh src dst startArg endArg user sink).aborted =
        true ∧
      (clone_range history beh src dst startArg endArg user sink).error =
        some restrictedAbortMsg ∧ restrictedAbortMsg ≠ "" ∧
      (clone_range history beh src dst startArg endArg user sink).stats.success =
        pre.countP (isOkItem beh) ∧
      (clone_range history beh src dst startArg endArg user sink).stats.failed =
        pre.countP (isErrItem beh) + 1 ∧
      (clone_range history beh src dst startArg endArg user sink).stats.skipped =
        pre.countP isSkipMsg ∧
      (clone_range history beh src dst startArg endArg user sink).stats.success +
        (clone_range history beh src dst startArg endArg user sink).stats.failed +
        (clone_range history beh src dst startArg endArg user sink).stats.skipped =
        pre.length + 1 ∧
      copyIds (clone_range history beh src dst startArg endArg user sink).events =
        (pre.filter (fun x => !isSkipMsg x)).map (fun x => x.id) ++ [m.id]) := by
  constructor
  · intro heq
    obtain ⟨ps, hrun, hpsprog⟩ :=
      clone_channel_run history beh src dst user sink startFrom hsink
    rw [heq] at hrun
    have hloop := replication_loop_restricted_spec true sink beh src dst user
      hsink pre m post 0 ⟨(pre ++ m :: post).length, 0, 0, 0, []⟩
      hpre hm1 hm2
    rw [hrun]
    have hpart := countP_partition beh pre hpre
    refine ⟨hloop.1, hloop.2.1, by decide, ?_, ?_, ?_, ?_, ?_⟩
    · rw [show ((⟨(pre ++ m :: post).length, 0, 0, 0, []⟩ : Stats)).success = 0
        from rfl] at hloop
      simpa using hloop.2.2.1
    · simpa using hloop.2.2.2.1
    · simpa using hloop.2.2.2.2.1
    · have h1 := hloop.2.2.1
      have h2 := hloop.2.2.2.1
      have h3 := hloop.2.2.2.2.1
      simp only [show ((⟨(pre ++ m :: post).length, 0, 0, 0, []⟩ : Stats)).success = 0
        from rfl, show ((⟨(pre ++ m :: post).length, 0, 0, 0, []⟩ : Stats)).failed = 0
        from rfl, show ((⟨(pre ++ m :: post).length, 0, 0, 0, []⟩ : Stats)).skipped = 0
        from rfl] at h1 h2 h3
      rw [h1, h2, h3]
      omega
    · show copyIds (ps ++ _) = _
      rw [copyIds_append, copyIds_of_progress_only ps hpsprog,
        hloop.2.2.2.2.2]
      simp
  · intro heq
    have hne : collectRange (if startArg > endArg then endArg else startArg)
        (if startArg > endArg then startArg else endArg) history ≠ [] := by
      intro h0
      rw [h0] at heq
      simp at heq
    obtain ⟨ps, hrun, hpsprog⟩ :=
      clone_range_run history beh src dst startArg endArg user sink hsink hne
    rw [heq] at hrun
    have hloop := replication_loop_restricted_spec false sink beh src dst user
      hsink pre m post 0 ⟨(pre ++ m :: post).length, 0, 0, 0, []⟩
      hpre hm1 hm2
    rw [hrun]
    have hpart := countP_partition beh pre hpre
    refine ⟨hloop.1, hloop.2.1, by decide, ?_, ?_, ?_, ?_, ?_⟩
    · simpa using hloop.2.2.1
    · simpa using hloop.2.2.2.1
    · simpa using hloop.2.2.2.2.1
    · have h1 := hloop.2.2.1
      have h2 := hloop.2.2.2.1
      have h3 := hloop.2.2.2.2.1
      simp only [show ((⟨(pre ++ m :: post).length, 0, 0, 0, []⟩ : Stats)).success = 0
        from rfl, show ((⟨(pre ++ m :: post).length, 0, 0, 0, []⟩ : Stats)).failed = 0
        from rfl, show ((⟨(pre ++ m :: post).length, 0, 0, 0, []⟩ : Stats)).skipped = 0
        from rfl] at h1 h2 h3
      rw [h1, h2, h3]
      omega
    · show copyIds (ps ++ _) = _
      rw [copyIds_append, copyIds_of_progress_only ps hpsprog,
        hloop.2.2.2.2.2]
      simp

end AutoFbot

namespace AutoFbot

/-- Concrete history for the C1 witness: ids 3, 2, 1 (newest first);
message 2 is a service message; message 3 is forwarding-restricted. -/
def c1Hist : List MsgItem :=
  [⟨3, false, false⟩, ⟨2, false, true⟩, ⟨1, false, false⟩]

/-- Concrete copy behaviour for the C1 witness. -/
def c1Beh : Int → CopyBehavior := fun mid =>
  if mid = 3 then ⟨[], CopyFinal.forwardingRestricted⟩
  else ⟨[], CopyFinal.ok 0⟩

theorem c1_restricted_abort_preserves_counts_witness :
    (clone_channel c1Hist c1Beh 10 20 7 none 0).aborted = true ∧
    (clone_channel c1Hist c1Beh 10 20 7 none 0).stats.success = 1 ∧
    (clone_channel c1Hist c1Beh 10 20 7 none 0).stats.failed = 1 ∧
    (clone_channel c1Hist c1Beh 10 20 7 none 0).stats.skipped = 1 ∧
    (clone_range c1Hist c1Beh 10 20 1 3 7 none).aborted = true ∧
    (clone_range c1Hist c1Beh 10 20 1 3 7 none).stats.success +
      (clone_range c1Hist c1Beh 10 20 1 3 7 none).stats.failed +
      (clone_range c1Hist c1Beh 10 20 1 3 7 none).stats.skipped = 3 := by
  have h := c1_restricted_abort_preserves_counts c1Hist c1Beh 10 20 7 none 0
    1 3 [⟨1, false, false⟩, ⟨2, false, true⟩] ⟨3, false, false⟩ []
    (fun f hf => nomatch hf) (by decide) (by decide) (by decide)
  have ha := h.1 (by decide)
  have hb := h.2 (by decide)
  exact ⟨ha.1, ha.2.2.2.1.trans (by decide),
    ha.2.2.2.2.1.trans (by decide), ha.2.2.2.2.2.1.trans (by decide),
    hb.1, hb.2.2.2.2.2.2.1.trans (by decide)⟩

/-- The ids passed to `copy_message` by `clone_channel` are those of its
inner loop: the pre-loop progress call contributes none (and if it raises,
no id is passed at all). -/
theorem clone_channel_copyIds (history : List MsgItem)
    (beh : Int → CopyBehavior) (src dst user : Int) (sink : Option Sink)
    (startFrom : Int) :
    copyIds (clone_channel history beh src dst user sink startFrom).events =
      copyIds (replication_loop true sink beh src dst user
        ((collectChannel startFrom history).reverse) 0
        ⟨((collectChannel startFrom history).reverse).length, 0, 0, 0, []⟩).events ∨
    copyIds (clone_channel history beh src dst user sink startFrom).events =
      [] := by
  cases sink with
  | none =>
    left
    rfl
  | some f =>
    simp only [clone_channel]
    cases hf : f (foundText
        ((collectChannel startFrom history).reverse).length) with
    | some e =>
      right
      simp [hf]
    | none =>
      left
      simp [hf]

/-- Same for `clone_range`: its two pre-loop progress calls and its
empty-range abort contribute no `copy_message` invocation. -/
theorem clone_range_copyIds (history : List MsgItem)
    (beh : Int → CopyBehavior) (src dst : Int) (startArg endArg : Int)
    (user : Int) (sink : Option Sink) :
    copyIds (clone_range history beh src dst startArg endArg user
        sink).events =
      copyIds (replication_loop false sink beh src dst user
        ((collectRange (if startArg > endArg then endArg else startArg)
          (if startArg > endArg then startArg else endArg) history).reverse) 0
        ⟨((collectRange (if startArg > endArg then endArg else startArg)
          (if startArg > endArg then startArg else endArg)
          history).reverse).length, 0, 0, 0, []⟩).events ∨
    copyIds (clone_range history beh src dst startArg endArg user
        sink).events = [] := by
  cases sink with
  | none =>
    by_cases h0 : collectRange (if startArg > endArg then endArg else startArg)
        (if startArg > endArg then startArg else endArg) history = []
    · right
      simp [clone_range, clone_range_core, h0]
    · left
      simp [clone_range, clone_range_core, h0]
  | some f =>
    simp only [clone_range]
    cases hf1 : f (fetchingText
        (if startArg > endArg then endArg else startArg)
        (if startArg > endArg then startArg else endArg)) with
    | some e =>
      right
      simp [hf1]
    | none =>
      by_cases h0 : collectRange
          (if startArg > endArg then endArg else startArg)
          (if startArg > endArg then startArg else endArg) history = []
      · right
        simp [clone_range_core, hf1, h0]
      · cases hf2 : f (foundRangeText
            (collectRange (if startArg > endArg then endArg else startArg)
              (if startArg > endArg then startArg else endArg)
              history).length
            (if startArg > endArg then endArg else startArg)
            (if startArg > endArg then startArg else endArg)) with
        | some e =>
          right
          simp [clone_range_core, hf1, hf2, h0]
        | none =>
          left
          simp [clone_range_core, hf1, hf2, h0]

/-- C2: assuming the remote pagination yields strictly decreasing ids, the
replication primitive is invoked on strictly increasing ids, in both
full-clone and range-clone mode. -/
theorem c2_replication_in_increasing_id_order (history : List MsgItem)
    (beh : Int → CopyBehavior) (src dst user : Int) (sink : Option Sink)
    (startFrom startArg endArg : Int)
    (hdec : List.Pairwise (fun a b => b < a)
      (history.map (fun m => m.id))) :
    List.Pairwise (fun a b => a < b)
      (copyIds (clone_channel history beh src dst user sink
        startFrom).events) ∧
    List.Pairwise (fun a b => a < b)
      (copyIds (clone_range history beh src dst startArg endArg user
        sink).events) := by
  constructor
  · have hchan : List.Pairwise (fun a b => b < a)
        ((collectChannel startFrom history).map (fun m => m.id)) :=
      List.Pairwise.sublist
        (List.Sublist.map _ (collectChannel_sublist startFrom history)) hdec
    have hrev : List.Pairwise (fun a b => a < b)
        (((collectChannel startFrom history).reverse).map
          (fun m => m.id)) := by
      rw [List.map_reverse]
      exact (List.pairwise_reverse).mpr hchan
    rcases clone_channel_copyIds history beh src dst user sink startFrom with
      h | h
    · rw [h]
      exact List.Pairwise.sublist
        (replication_loop_copyIds_sublist true sink beh src dst user _ 0 _)
        hrev
    · rw [h]
      exact List.Pairwise.nil
  · have hchan : List.Pairwise (fun a b => b < a)
        ((collectRange (if startArg > endArg then endArg else startArg)
          (if startArg > endArg then startArg else endArg)
          history).map (fun m => m.id)) :=
      List.Pairwise.sublist
        (List.Sublist.map _ (collectRange_sublist _ _ history)) hdec
    have hrev : List.Pairwise (fun a b => a < b)
        (((collectRange (if startArg > endArg then endArg else startArg)
          (if startArg > endArg then startArg else endArg)
          history).reverse).map (fun m => m.id)) := by
      rw [List.map_reverse]
      exact (List.pairwise_reverse).mpr hchan
    rcases clone_range_copyIds history beh src dst startArg endArg user sink
      with h | h
    · rw [h]
      exact List.Pairwise.sublist
        (replication_loop_copyIds_sublist false sink beh src dst user _ 0 _)
        hrev
    · rw [h]
      exact List.Pairwise.nil

/-- Concrete history for the C2 witness: ids 5, 4, 2, 1, all plain
successful messages. -/
def c2Hist : List MsgItem :=
  [⟨5, false, false⟩, ⟨4, false, false⟩, ⟨2, false, false⟩,
   ⟨1, false, false⟩]

/-- Concrete copy behaviour for the C2 witness (one FloodWait retry on
message 4, then success). -/
def c2Beh : Int → CopyBehavior := fun mid =>
  if mid = 4 then ⟨[3], CopyFinal.ok 0⟩ else ⟨[], CopyFinal.ok 0⟩

theorem c2_replication_in_increasing_id_order_witness :
    List.Pairwise (fun a b => a < b)
      (copyIds (clone_channel c2Hist c2Beh 10 20 7 none 0).events) ∧
    List.Pairwise (fun a b => a < b)
      (copyIds (clone_range c2Hist c2Beh 10 20 1 5 7 none).events) :=
  c2_replication_in_increasing_id_order c2Hist c2Beh 10 20 7 none 0 1 5
    (by decide)

end AutoFbot

namespace AutoFbot

/-- C3 (amended): a failure raised inside the progress callback is NOT
swallowed by the engine: it propagates to the generic exception handler
and aborts the job.  Stated as: in any run (full or range mode) that ends
with `aborted = false`, every progress invocation that was performed
returned normally — equivalently, a callback failure on any reached
invocation always aborts the job. -/
theorem c3_sink_failure_aborts_job (history : List MsgItem)
    (beh : Int → CopyBehavior) (src dst user : Int) (f : Sink)
    (startFrom startArg endArg : Int) :
    ((clone_channel history beh src dst user (some f) startFrom).aborted =
        false →
      ∀ t, Event.progress t ∈
          (clone_channel history beh src dst user (some f) startFrom).events →
        f t = none) ∧
    ((clone_range history beh src dst startArg endArg user
        (some f)).aborted = false →
      ∀ t, Event.progress t ∈
          (clone_range history beh src dst startArg endArg user
            (some f)).events →
        f t = none) := by
  constructor
  · cases hf : f (foundText (collectChannel startFrom history).length) with
    | some e =>
      intro hab
      exfalso
      simp [clone_channel, hf] at hab
    | none =>
      have hrw : clone_channel history beh src dst user (some f) startFrom =
          { stats := (replication_loop true (some f) beh src dst user
              ((collectChannel startFrom history).reverse) 0
              ⟨(collectChannel startFrom history).length, 0, 0, 0, []⟩).stats
            error := (replication_loop true (some f) beh src dst user
              ((collectChannel startFrom history).reverse) 0
              ⟨(collectChannel startFrom history).length, 0, 0, 0, []⟩).error
            aborted := (replication_loop true (some f) beh src dst user
              ((collectChannel startFrom history).reverse) 0
              ⟨(collectChannel startFrom history).length, 0, 0, 0, []⟩).aborted
            events := Event.progress
                (foundText (collectChannel startFrom history).length) ::
              (replication_loop true (some f) beh src dst user
                ((collectChannel startFrom history).reverse) 0
                ⟨(collectChannel startFrom history).length, 0, 0, 0,
                  []⟩).events } := by
        simp [clone_channel, hf]
      rw [hrw]
      intro hab t ht
      have hab2 : (replication_loop true (some f) beh src dst user
          ((collectChannel startFrom history).reverse) 0
          ⟨(collectChannel startFrom history).length, 0, 0, 0, []⟩).aborted =
          false := hab
      have ht2 : Event.progress t ∈ Event.progress
          (foundText (collectChannel startFrom history).length) ::
          (replication_loop true (some f) beh src dst user
            ((collectChannel startFrom history).reverse) 0
            ⟨(collectChannel startFrom history).length, 0, 0, 0,
              []⟩).events := ht
      rcases List.mem_cons.mp ht2 with h | h
      · cases h
        exact hf
      · exact replication_loop_sink_ok_of_not_aborted true (some f) beh src
          dst user _ 0 _ hab2 t h f rfl
  · cases hf1 : f (fetchingText
        (if startArg > endArg then endArg else startArg)
        (if startArg > endArg then startArg else endArg)) with
    | some e =>
      intro hab
      exfalso
      simp [clone_range, hf1] at hab
    | none =>
      by_cases h0 : collectRange
          (if startArg > endArg then endArg else startArg)
          (if startArg > endArg then startArg else endArg) history = []
      · intro hab
        exfalso
        simp [clone_range, clone_range_core, hf1, h0] at hab
      · cases hf2 : f (foundRangeText
            (collectRange (if startArg > endArg then endArg else startArg)
              (if startArg > endArg then startArg else endArg)
              history).length
            (if startArg > endArg then endArg else startArg)
            (if startArg > endArg then startArg else endArg)) with
        | some e =>
          intro hab
          exfalso
          simp [clone_range, clone_range_core, hf1, hf2, h0] at hab
        | none =>
          have hrw : clone_range history beh src dst startArg endArg user
              (some f) =
              { stats := (replication_loop false (some f) beh src dst user
                  ((collectRange
                    (if startArg > endArg then endArg else startArg)
                    (if startArg > endArg then startArg else endArg)
                    history).reverse) 0
                  ⟨(collectRange
                    (if startArg > endArg then endArg else startArg)
                    (if startArg > endArg then startArg else endArg)
                    history).length, 0, 0, 0, []⟩).stats
                startId := startArg
                endId := endArg
                error := (replication_loop false (some f) beh src dst user
                  ((collectRange
                    (if startArg > endArg then endArg else startArg)
                    (if startArg > endArg then startArg else endArg)
                    history).reverse) 0
                  ⟨(collectRange
                    (if startArg > endArg then endArg else startArg)
                    (if startArg > endArg then startArg else endArg)
                    history).length, 0, 0, 0, []⟩).error
                aborted := (replication_loop false (some f) beh src dst user
                  ((collectRange
                    (if startArg > endArg then endArg else startArg)
                    (if startArg > endArg then startArg else endArg)
                    history).reverse) 0
                  ⟨(collectRange
                    (if startArg > endArg then endArg else startArg)
                    (if startArg > endArg then startArg else endArg)
                    history).length, 0, 0, 0, []⟩).aborted
                events := Event.progress (fetchingText
                    (if startArg > endArg then endArg else startArg)
                    (if startArg > endArg then startArg else endArg)) ::
                  Event.progress (foundRangeText
                    (collectRange
                      (if startArg > endArg then endArg else startArg)
                      (if startArg > endArg then startArg else endArg)
                      history).length
                    (if startArg > endArg then endArg else startArg)
                    (if startArg > endArg then startArg else endArg)) ::
                  (replication_loop false (some f) beh src dst user
                    ((collectRange
                      (if startArg > endArg then endArg else startArg)
                      (if startArg > endArg then startArg else endArg)
                      history).reverse) 0
                    ⟨(collectRange
                      (if startArg > endArg then endArg else startArg)
                      (if startArg > endArg then startArg else endArg)
                      history).length, 0, 0, 0, []⟩).events } := by
            simp [clone_range, clone_range_core, hf1, hf2, h0]
          rw [hrw]
          intro hab t ht
          have hab2 : (replication_loop false (some f) beh src dst user
              ((collectRange (if startArg > endArg then endArg else startArg)
                (if startArg > endArg then startArg else endArg)
                history).reverse) 0
              ⟨(collectRange (if startArg > endArg then endArg else startArg)
                (if startArg > endArg then startArg else endArg)
                history).length, 0, 0, 0, []⟩).aborted = false := hab
          rcases List.mem_cons.mp ht with h | h
          · cases h
            exact hf1
          · rcases List.mem_cons.mp h with h2 | h2
            · cases h2
              exact hf2
            · exact replication_loop_sink_ok_of_not_aborted false (some f)
                beh src dst user _ 0 _ hab2 t h2 f rfl

/-- Eleven plain messages, newest first, for the C3 counterexample. -/
def c3Hist : List MsgItem :=
  [⟨11, false, false⟩, ⟨10, false, false⟩, ⟨9, false, false⟩,
   ⟨8, false, false⟩, ⟨7, false, false⟩, ⟨6, false, false⟩,
   ⟨5, false, false⟩, ⟨4, false, false⟩, ⟨3, false, false⟩,
   ⟨2, false, false⟩, ⟨1, false, false⟩]

/-- Every copy succeeds. -/
def c3Beh : Int → CopyBehavior := fun _ => ⟨[], CopyFinal.ok 0⟩

/-- A progress callback that returns normally on the pre-loop announcement
but raises on the in-loop progress report. -/
def c3Sink : Sink := fun s => if s = foundText 11 then none else some "boom"

/-- C3 counterexample: with eleven successful messages and a callback that
raises on the in-loop report after item 10, the job is aborted by the sink
failure — `aborted = true`, only 10 of 11 items processed — refuting the
claim that a sink failure never aborts the job and leaves the report
unaffected. -/
theorem c3_counterexample :
    (clone_channel c3Hist c3Beh 1 2 3 (some c3Sink) 0).aborted = true ∧
    (clone_channel c3Hist c3Beh 1 2 3 (some c3Sink) 0).stats.success = 10 ∧
    (clone_channel c3Hist c3Beh 1 2 3 (some c3Sink) 0).stats.total = 11 ∧
    (clone_channel c3Hist c3Beh 1 2 3 (some c3Sink) 0).error =
      some (genericErrorText "boom") := by
  decide

/-- A callback that never raises on any text this run produces. -/
def c3WitSink : Sink := fun s => if s = "unreachable" then some "boom" else none

theorem c3_sink_failure_aborts_job_witness :
    c3WitSink (foundText 11) = none := by
  have h := (c3_sink_failure_aborts_job c3Hist c3Beh 1 2 3 c3WitSink 0 1
    11).1
  exact h (by decide) (foundText 11) (by decide)

/-- C7 (amended): the fixed inter-item delay is slept after every
successful and every (non-aborting) failed item, but NOT after skipped
items: in a run that does not abort, the number of `sleepDelay` events
equals `succeeded + failed`, in both modes. -/
theorem c7_delay_after_success_and_failure_only (history : List MsgItem)
    (beh : Int → CopyBehavior) (src dst user : Int) (sink : Option Sink)
    (startFrom startArg endArg : Int) :
    ((clone_channel history beh src dst user sink startFrom).aborted =
        false →
      countDelay (clone_channel history beh src dst user sink
          startFrom).events =
        (clone_channel history beh src dst user sink
          startFrom).stats.success +
        (clone_channel history beh src dst user sink
          startFrom).stats.failed) ∧
    ((clone_range history beh src dst startArg endArg user sink).aborted =
        false →
      countDelay (clone_range history beh src dst startArg endArg user
          sink).events =
        (clone_range history beh src dst startArg endArg user
          sink).stats.success +
        (clone_range history beh src dst startArg endArg user
          sink).stats.failed) := by
  constructor
  · cases sink with
    | none =>
      intro hab
      have h := replication_loop_delay_count true none beh src dst user
        ((collectChannel startFrom history).reverse) 0
        ⟨((collectChannel startFrom history).reverse).length, 0, 0, 0, []⟩
        hab
      exact h
    | some f =>
      cases hf : f (foundText (collectChannel startFrom history).length) with
      | some e =>
        intro hab
        exfalso
        simp [clone_channel, hf] at hab
      | none =>
        have hrw : clone_channel history beh src dst user (some f)
            startFrom =
            { stats := (replication_loop true (some f) beh src dst user
                ((collectChannel startFrom history).reverse) 0
                ⟨(collectChannel startFrom history).length, 0, 0, 0,
                  []⟩).stats
              error := (replication_loop true (some f) beh src dst user
                ((collectChannel startFrom history).reverse) 0
                ⟨(collectChannel startFrom history).length, 0, 0, 0,
                  []⟩).error
              aborted := (replication_loop true (some f) beh src dst user
                ((collectChannel startFrom history).reverse) 0
                ⟨(collectChannel startFrom history).length, 0, 0, 0,
                  []⟩).aborted
              events := Event.progress
                  (foundText (collectChannel startFrom history).length) ::
                (replication_loop true (some f) beh src dst user
                  ((collectChannel startFrom history).reverse) 0
                  ⟨(collectChannel startFrom history).length, 0, 0, 0,
                    []⟩).events } := by
          simp [clone_channel, hf]
        rw [hrw]
        intro hab
        have hab2 : (replication_loop true (some f) beh src dst user
            ((collectChannel startFrom history).reverse) 0
            ⟨(collectChannel startFrom history).length, 0, 0, 0,
              []⟩).aborted = false := hab
        have h := replication_loop_delay_count true (some f) beh src dst
          user ((collectChannel startFrom history).reverse) 0
          ⟨(collectChannel startFrom history).length, 0, 0, 0, []⟩ hab2
        show countDelay (Event.progress _ :: _) = _
        rw [countDelay_cons_progress]
        exact h
  · cases sink with
    | none =>
      by_cases h0 : collectRange
          (if startArg > endArg then endArg else startArg)
          (if startArg > endArg then startArg else endArg) history = []
      · intro hab
        exfalso
        simp [clone_range, clone_range_core, h0] at hab
      · have hrw : clone_range history beh src dst startArg endArg user
            none =
            { stats := (replication_loop false none beh src dst user
                ((collectRange
                  (if startArg > endArg then endArg else startArg)
                  (if startArg > endArg then startArg else endArg)
                  history).reverse) 0
                ⟨(collectRange
                  (if startArg > endArg then endArg else startArg)
                  (if startArg > endArg then startArg else endArg)
                  history).length, 0, 0, 0, []⟩).stats
              startId := startArg
              endId := endArg
              error := (replication_loop false none beh src dst user
                ((collectRange
                  (if startArg > endArg then endArg else startArg)
                  (if startArg > endArg then startArg else endArg)
                  history).reverse) 0
                ⟨(collectRange
                  (if startArg > endArg then endArg else startArg)
                  (if startArg > endArg then startArg else endArg)
                  history).length, 0, 0, 0, []⟩).error
              aborted := (replication_loop false none beh src dst user
                ((collectRange
                  (if startArg > endArg then endArg else startArg)
                  (if startArg > endArg then startArg else endArg)
                  history).reverse) 0
                ⟨(collectRange
                  (if startArg > endArg then endArg else startArg)
                  (if startArg > endArg then startArg else endArg)
                  history).length, 0, 0, 0, []⟩).aborted
              events := (replication_loop false none beh src dst user
                ((collectRange
                  (if startArg > endArg then endArg else startArg)
                  (if startArg > endArg then startArg else endArg)
                  history).reverse) 0
                ⟨(collectRange
                  (if startArg > endArg then endArg else startArg)
                  (if startArg > endArg then startArg else endArg)
                  history).length, 0, 0, 0, []⟩).events } := by
          simp [clone_range, clone_range_core, h0]
        rw [hrw]
        intro hab
        have hab2 : (replication_loop false none beh src dst user
            ((collectRange (if startArg > endArg then endArg else startArg)
              (if startArg > endArg then startArg else endArg)
              history).reverse) 0
            ⟨(collectRange (if startArg > endArg then endArg else startArg)
              (if startArg > endArg then startArg else endArg)
              history).length, 0, 0, 0, []⟩).aborted = false := hab
        have h := replication_loop_delay_count false none beh src dst user
          ((collectRange (if startArg > endArg then endArg else startArg)
            (if startArg > endArg then startArg else endArg)
            history).reverse) 0
          ⟨(collectRange (if startArg > endArg then endArg else startArg)
            (if startArg > endArg then startArg else endArg)
            history).length, 0, 0, 0, []⟩ hab2
        exact h
    | some f =>
      cases hf1 : f (fetchingText
          (if startArg > endArg then endArg else startArg)
          (if startArg > endArg then startArg else endArg)) with
      | some e =>
        intro hab
        exfalso
        simp [clone_range, hf1] at hab
      | none =>
        by_cases h0 : collectRange
            (if startArg > endArg then endArg else startArg)
            (if startArg > endArg then startArg else endArg) history = []
        · intro hab
          exfalso
          simp [clone_range, clone_range_core, hf1, h0] at hab
        · cases hf2 : f (foundRangeText
              (collectRange (if startArg > endArg then endArg else startArg)
                (if startArg > endArg then startArg else endArg)
                history).length
              (if startArg > endArg then endArg else startArg)
              (if startArg > endArg then startArg else endArg)) with
          | some e =>
            intro hab
            exfalso
            simp [clone_range, clone_range_core, hf1, hf2, h0] at hab
          | none =>
            have hrw : clone_range history beh src dst startArg endArg user
                (some f) =
                { stats := (replication_loop false (some f) beh src dst user
                    ((collectRange
                      (if startArg > endArg then endArg else startArg)
                      (if startArg > endArg then startArg else endArg)
                      history).reverse) 0
                    ⟨(collectRange
                      (if startArg > endArg then endArg else startArg)
                      (if startArg > endArg then startArg else endArg)
                      history).length, 0, 0, 0, []⟩).stats
                  startId := startArg
                  endId := endArg
                  error := (replication_loop false (some f) beh src dst user
                    ((collectRange
                      (if startArg > endArg then endArg else startArg)
                      (if startArg > endArg then startArg else endArg)
                      history).reverse) 0
                    ⟨(collectRange
                      (if startArg > endArg then endArg else startArg)
                      (if startArg > endArg then startArg else endArg)
                      history).length, 0, 0, 0, []⟩).error
                  aborted := (replication_loop false (some f) beh src dst
                    user ((collectRange
                      (if startArg > endArg then endArg else startArg)
                      (if startArg > endArg then startArg else endArg)
                      history).reverse) 0
                    ⟨(collectRange
                      (if startArg > endArg then endArg else startArg)
                      (if startArg > endArg then startArg else endArg)
                      history).length, 0, 0, 0, []⟩).aborted
                  events := Event.progress (fetchingText
                      (if startArg > endArg then endArg else startArg)
                      (if startArg > endArg then startArg else endArg)) ::
                    Event.progress (foundRangeText
                      (collectRange
                        (if startArg > endArg then endArg else startArg)
                        (if startArg > endArg then startArg else endArg)
                        history).length
                      (if startArg > endArg then endArg else startArg)
                      (if startArg > endArg then startArg else endArg)) ::
                    (replication_loop false (some f) beh src dst user
                      ((collectRange
                        (if startArg > endArg then endArg else startArg)
                        (if startArg > endArg then startArg else endArg)
                        history).reverse) 0
                      ⟨(collectRange
                        (if startArg > endArg then endArg else startArg)
                        (if startArg > endArg then startArg else endArg)
                        history).length, 0, 0, 0, []⟩).events } := by
              simp [clone_range, clone_range_core, hf1, hf2, h0]
            rw [hrw]
            intro hab
            have hab2 : (replication_loop false (some f) beh src dst user
                ((collectRange
                  (if startArg > endArg then endArg else startArg)
                  (if startArg > endArg then startArg else endArg)
                  history).reverse) 0
                ⟨(collectRange
                  (if startArg > endArg then endArg else startArg)
                  (if startArg > endArg then startArg else endArg)
                  history).length, 0, 0, 0, []⟩).aborted = false := hab
            have h := replication_loop_delay_count false (some f) beh src
              dst user ((collectRange
                (if startArg > endArg then endArg else startArg)
                (if startArg > endArg then startArg else endArg)
                history).reverse) 0
              ⟨(collectRange (if startArg > endArg then endArg else startArg)
                (if startArg > endArg then startArg else endArg)
                history).length, 0, 0, 0, []⟩ hab2
            show countDelay (Event.progress _ :: Event.progress _ :: _) = _
            rw [countDelay_cons_progress, countDelay_cons_progress]
            exact h

/-- A single service message, for the C7 counterexample. -/
def c7Hist : List MsgItem := [⟨5, false, true⟩]

/-- Irrelevant copy behaviour (never reached). -/
def c7Beh : Int → CopyBehavior := fun _ => ⟨[], CopyFinal.ok 0⟩

/-- C7 counterexample: a run whose only item is a service message is
processed (counted in `skipped`) and the run ends normally, yet NO
inter-item delay is slept — the `continue` at forwarder.py 230/361 jumps
past the `asyncio.sleep(self.delay_between_messages)` line, refuting the
claim that the delay applies uniformly to skipped items. -/
theorem c7_counterexample :
    countDelay (clone_channel c7Hist c7Beh 1 2 3 none 0).events = 0 ∧
    (clone_channel c7Hist c7Beh 1 2 3 none 0).stats.skipped = 1 ∧
    (clone_channel c7Hist c7Beh 1 2 3 none 0).aborted = false := by
  decide

/-- History for the C7 witness: one success and one failure. -/
def c7WHist : List MsgItem := [⟨2, false, false⟩, ⟨1, false, false⟩]

/-- Copy behaviour for the C7 witness: message 1 fails, message 2
succeeds. -/
def c7WBeh : Int → CopyBehavior := fun mid =>
  if mid = 1 then ⟨[], CopyFinal.rpcError "err"⟩ else ⟨[], CopyFinal.ok 0⟩

theorem c7_delay_after_success_and_failure_only_witness :
    countDelay (clone_channel c7WHist c7WBeh 1 2 3 none 0).events =
      (clone_channel c7WHist c7WBeh 1 2 3 none 0).stats.success +
      (clone_channel c7WHist c7WBeh 1 2 3 none 0).stats.failed :=
  (c7_delay_after_success_and_failure_only c7WHist c7WBeh 1 2 3 none 0 1
    2).1 (by decide)

end AutoFbot

namespace AutoFbot

/-- State for C4: user 1 has an in-flight login attempt (scoped connection
0, phone "+111", challenge token "h0", step "otp"), no cached client and —
per the claim — no PersistedSession. -/
def c4State : UCState :=
  { active_clients := fun _ => none
    pending_logins := fun u =>
      if u = 1 then some ⟨0, "+111", "h0", "otp"⟩ else none
    nextClientId := 1 }

/-- C4 counterexample: a second `/login` while an attempt is in-flight and
no PersistedSession exists is ACCEPTED, not rejected: `login_command` only
consults `get_client` (which knows nothing of `pending_logins`), and
`initiate_login` overwrites the pending record with a brand-new connection
(id 1), phone and challenge token; the original connection 0 is never
disconnected — refuting "rejected without modifying the in-flight
attempt's state". -/
theorem c4_counterexample :
    (login_command c4State (fun _ => false) (Except.ok none) (Except.ok 9)
        (Except.ok ()) (SendCodeOutcome.ok "h1") 1 (some "+222")).1 =
      LoginCmdReply.otpSent
        "OTP sent to +222. Please enter the OTP code." ∧
    c4State.pending_logins 1 = some ⟨0, "+111", "h0", "otp"⟩ ∧
    (login_command c4State (fun _ => false) (Except.ok none) (Except.ok 9)
        (Except.ok ()) (SendCodeOutcome.ok "h1") 1
        (some "+222")).2.1.pending_logins 1 =
      some ⟨1, "+222", "h1", "otp"⟩ ∧
    (login_command c4State (fun _ => false) (Except.ok none) (Except.ok 9)
        (Except.ok ()) (SendCodeOutcome.ok "h1") 1
        (some "+222")).2.1.pending_logins 1 ≠
      c4State.pending_logins 1 ∧
    UEvent.disconnect 0 ∉
      (login_command c4State (fun _ => false) (Except.ok none)
        (Except.ok 9) (Except.ok ()) (SendCodeOutcome.ok "h1") 1
        (some "+222")).2.2 := by
  decide

/-- C4 (amended): a second login request while an attempt is in-flight and
no PersistedSession is stored is accepted and starts a fresh attempt:
`get_client` finds nothing, `initiate_login` opens a NEW scoped connection
and overwrites the pending record with the new connection id, normalized
phone and fresh challenge token; the prior attempt's connection is not
disconnected (it leaks). -/
theorem c4_second_login_overwrites_pending (st : UCState)
    (isConnected : Nat → Bool) (constructStart : Except String Nat)
    (p : PendingLogin) (user : Int) (ph h2 : String)
    (_hpend : st.pending_logins user = some p)
    (hactive : st.active_clients user = none) :
    (login_command st isConnected (Except.ok none) constructStart
        (Except.ok ()) (SendCodeOutcome.ok h2) user (some ph)).1 =
      LoginCmdReply.otpSent ("OTP sent to " ++ normalizePhone ph ++
        ". Please enter the OTP code.") ∧
    (login_command st isConnected (Except.ok none) constructStart
        (Except.ok ()) (SendCodeOutcome.ok h2) user
        (some ph)).2.1.pending_logins user =
      some ⟨st.nextClientId, normalizePhone ph, h2, "otp"⟩ ∧
    (login_command st isConnected (Except.ok none) constructStart
        (Except.ok ()) (SendCodeOutcome.ok h2) user (some ph)).2.2 =
      [UEvent.connect st.nextClientId,
       UEvent.sendCode st.nextClientId (normalizePhone ph)] ∧
    UEvent.disconnect p.clientId ∉
      (login_command st isConnected (Except.ok none) constructStart
        (Except.ok ()) (SendCodeOutcome.ok h2) user (some ph)).2.2 := by
  have hget : get_client st isConnected (Except.ok none) constructStart
      user = (none, st) := by
    simp only [get_client, get_user_session]
    cases hac : st.active_clients user with
    | none => rfl
    | some c => rw [hactive] at hac; cases hac
  refine ⟨?_, ?_, ?_, ?_⟩ <;>
    simp [login_command, hget, initiate_login]

/-- C4 witness state reuse: applying the amended theorem at the concrete
state shows each conclusion concretely. -/
theorem c4_second_login_overwrites_pending_witness :
    (login_command c4State (fun _ => false) (Except.ok none) (Except.ok 9)
        (Except.ok ()) (SendCodeOutcome.ok "h1") 1 (some "+222")).1 =
      LoginCmdReply.otpSent ("OTP sent to " ++ normalizePhone "+222" ++
        ". Please enter the OTP code.") ∧
    (login_command c4State (fun _ => false) (Except.ok none) (Except.ok 9)
        (Except.ok ()) (SendCodeOutcome.ok "h1") 1
        (some "+222")).2.1.pending_logins 1 =
      some ⟨c4State.nextClientId, normalizePhone "+222", "h1", "otp"⟩ ∧
    (login_command c4State (fun _ => false) (Except.ok none) (Except.ok 9)
        (Except.ok ()) (SendCodeOutcome.ok "h1") 1 (some "+222")).2.2 =
      [UEvent.connect c4State.nextClientId,
       UEvent.sendCode c4State.nextClientId (normalizePhone "+222")] ∧
    UEvent.disconnect (0 : Nat) ∉
      (login_command c4State (fun _ => false) (Except.ok none)
        (Except.ok 9) (Except.ok ()) (SendCodeOutcome.ok "h1") 1
        (some "+222")).2.2 :=
  c4_second_login_overwrites_pending c4State (fun _ => false) (Except.ok 9)
    ⟨0, "+111", "h0", "otp"⟩ 1 "+222" "h1" (by decide) rfl

/-- Empty manager state for the C6 counterexample. -/
def c6State : UCState :=
  { active_clients := fun _ => none
    pending_logins := fun _ => none
    nextClientId := 0 }

/-- C6 counterexample: `cancel_login` for a user with no in-flight record
does NOT fail with NoPendingLogin — the Python function returns `None`
unconditionally (it has no error channel at all) and here it performs no
action: the state is unchanged and no connection is touched.  This is
silent success, refuting the claim that all three operations fail with
`NoPendingLogin`. -/
theorem c6_counterexample : cancel_login c6State 5 = (c6State, []) := rfl

/-- C6 (amended): against a user with no in-flight record, `verify_otp`
and `verify_2fa` fail with their NoPendingLogin error dictionaries and
leave the state untouched, while `cancel_login` silently does nothing. -/
theorem c6_no_pending_behaviour (st : UCState) (user : Int)
    (signIn : SignInOutcome) (checkPw : CheckPwOutcome)
    (exportO exportO2 : Except String String)
    (h : st.pending_logins user = none) :
    verify_otp st signIn exportO user =
      ({ success := false, step := none, message := none,
         error := some noPendingOtpMsg }, st) ∧
    verify_2fa st checkPw exportO2 user =
      ({ success := false, step := none, message := none,
         error := some noPending2faMsg }, st) ∧
    cancel_login st user = (st, []) := by
  refine ⟨?_, ?_, ?_⟩ <;> simp [verify_otp, verify_2fa, cancel_login, h]

theorem c6_no_pending_behaviour_witness :
    verify_otp c6State SignInOutcome.ok (Except.ok "blob") 5 =
      ({ success := false, step := none, message := none,
         error := some noPendingOtpMsg }, c6State) ∧
    verify_2fa c6State CheckPwOutcome.ok (Except.ok "blob") 5 =
      ({ success := false, step := none, message := none,
         error := some noPending2faMsg }, c6State) ∧
    cancel_login c6State 5 = (c6State, []) :=
  c6_no_pending_behaviour c6State 5 SignInOutcome.ok CheckPwOutcome.ok
    (Except.ok "blob") (Except.ok "blob") rfl

/-- C8: when `sign_in` answers with SessionPasswordNeeded, the in-flight
record is retained with step "2fa" so a subsequent `verify_2fa` finds it;
and when `check_password` fails with BadRequest (invalid password), the
record is STILL retained in step "2fa" so the user can retry. -/
theorem c8_twofa_retention (st : UCState) (user : Int) (p : PendingLogin)
    (exportO exportO2 : Except String String) (msg : String)
    (hpend : st.pending_logins user = some p) :
    (verify_otp st SignInOutcome.sessionPasswordNeeded exportO
        user).1.success = true ∧
    (verify_otp st SignInOutcome.sessionPasswordNeeded exportO
        user).1.step = some "2fa" ∧
    (verify_otp st SignInOutcome.sessionPasswordNeeded exportO
        user).2.pending_logins user = some { p with step := "2fa" } ∧
    (verify_2fa (verify_otp st SignInOutcome.sessionPasswordNeeded exportO
        user).2 (CheckPwOutcome.badRequest msg) exportO2
        user).1.success = false ∧
    (verify_2fa (verify_otp st SignInOutcome.sessionPasswordNeeded exportO
        user).2 (CheckPwOutcome.badRequest msg) exportO2 user).1.error =
      some "Invalid 2FA password. Please try again." ∧
    (verify_2fa (verify_otp st SignInOutcome.sessionPasswordNeeded exportO
        user).2 (CheckPwOutcome.badRequest msg) exportO2
        user).2.pending_logins user = some { p with step := "2fa" } := by
  have h1 : (verify_otp st SignInOutcome.sessionPasswordNeeded exportO
      user).2.pending_logins user = some { p with step := "2fa" } := by
    simp [verify_otp, hpend]
  refine ⟨by simp [verify_otp, hpend], by simp [verify_otp, hpend], h1,
    ?_, ?_, ?_⟩
  · simp [verify_2fa, h1]
  · simp [verify_2fa, h1]
  · simp [verify_2fa, h1]

/-- State for the C8 witness: user 1 is mid-login in step "otp". -/
def c8State : UCState :=
  { active_clients := fun _ => none
    pending_logins := fun u =>
      if u = 1 then some ⟨0, "+1", "h", "otp"⟩ else none
    nextClientId := 1 }

theorem c8_twofa_retention_witness :
    (verify_otp c8State SignInOutcome.sessionPasswordNeeded (Except.ok "b")
        1).1.success = true ∧
    (verify_otp c8State SignInOutcome.sessionPasswordNeeded (Except.ok "b")
        1).1.step = some "2fa" ∧
    (verify_otp c8State SignInOutcome.sessionPasswordNeeded (Except.ok "b")
        1).2.pending_logins 1 =
      some { (⟨0, "+1", "h", "otp"⟩ : PendingLogin) with step := "2fa" } ∧
    (verify_2fa (verify_otp c8State SignInOutcome.sessionPasswordNeeded
        (Except.ok "b") 1).2 (CheckPwOutcome.badRequest "bad")
        (Except.ok "b") 1).1.success = false ∧
    (verify_2fa (verify_otp c8State SignInOutcome.sessionPasswordNeeded
        (Except.ok "b") 1).2 (CheckPwOutcome.badRequest "bad")
        (Except.ok "b") 1).1.error =
      some "Invalid 2FA password. Please try again." ∧
    (verify_2fa (verify_otp c8State SignInOutcome.sessionPasswordNeeded
        (Except.ok "b") 1).2 (CheckPwOutcome.badRequest "bad")
        (Except.ok "b") 1).2.pending_logins 1 =
      some { (⟨0, "+1", "h", "otp"⟩ : PendingLogin) with step := "2fa" } :=
  c8_twofa_retention c8State 1 ⟨0, "+1", "h", "otp"⟩ (Except.ok "b")
    (Except.ok "b") "bad" (by decide)

/-- C9: `get_client` never lets a failure escape: with no cached connected
handle, if the stored-session read yields nothing (including when the
storage layer raises — caught inside `get_user_session`), or the stored
row has a falsy session string, or constructing/starting the client from
the session blob fails (caught inside `start_client_from_session`), the
result is `none`. -/
theorem c9_get_client_returns_none_on_failure (st : UCState)
    (isConnected : Nat → Bool) (dbRaw : Except String (Option SessionRow))
    (constructStart : Except String Nat) (user : Int)
    (hcache : ∀ c, st.active_clients user = some c → isConnected c = false)
    (hfail : get_user_session dbRaw = none ∨
      ∃ row, get_user_session dbRaw = some row ∧
        (row.session_string = "" ∨ ∃ e, constructStart = Except.error e)) :
    (get_client st isConnected dbRaw constructStart user).1 = none := by
  have hres : ((match get_user_session dbRaw with
      | some row =>
        if row.session_string = "" then ((none : Option Nat), st)
        else start_client_from_session st constructStart user
      | none => (none, st)) : Option Nat × UCState).1 = none := by
    rcases hfail with h | ⟨row, hrow, hbad⟩
    · rw [h]
    · rw [hrow]
      rcases hbad with hb | ⟨e, he⟩
      · simp [hb]
      · by_cases hs : row.session_string = ""
        · simp [hs]
        · simp [hs, start_client_from_session, he]
  cases hac : st.active_clients user with
  | none =>
    simp only [get_client, hac]
    exact hres
  | some c =>
    have hc := hcache c hac
    simp only [get_client, hac, hc]
    exact hres

theorem c9_get_client_returns_none_on_failure_witness :
    (get_client c6State (fun _ => true) (Except.error "db down")
      (Except.error "bad blob") 7).1 = none :=
  c9_get_client_returns_none_on_failure c6State (fun _ => true)
    (Except.error "db down") (Except.error "bad blob") 7
    (fun _ hc => nomatch hc) (Or.inl rfl)

/-- C10: `get_destination` returns the integer 0 — not an absent value —
when no settings document exists, when the document lacks the field, when
the storage read raises, and when the destination was explicitly set to 0;
and both `clone_command` and `crange_command` treat 0 as "not set" and
block the clone, so those situations are indistinguishable at the command
surface. -/
theorem c10_zero_destination_blocks
    (raw : Except String (Option SettingsRow)) (e : String) :
    get_destination (Except.error e) = 0 ∧
    get_destination (Except.ok none) = 0 ∧
    get_destination (Except.ok (some ⟨none⟩)) = 0 ∧
    get_destination (Except.ok (some (set_destination_doc 0))) = 0 ∧
    (get_destination raw = 0 →
      clone_command_dest_ok (get_destination raw) = false ∧
      crange_command_dest_ok (get_destination raw) = false) := by
  refine ⟨rfl, rfl, rfl, rfl, ?_⟩
  intro h
  rw [h]
  exact ⟨rfl, rfl⟩

theorem c10_zero_destination_blocks_witness :
    get_destination (Except.error "boom") = 0 ∧
    get_destination (Except.ok none) = 0 ∧
    clone_command_dest_ok (get_destination (Except.ok none)) = false ∧
    crange_command_dest_ok (get_destination (Except.ok none)) = false := by
  have h := c10_zero_destination_blocks (Except.ok none) "boom"
  exact ⟨h.1, h.2.1, (h.2.2.2.2 h.2.1).1, (h.2.2.2.2 h.2.1).2⟩

end AutoFbot

namespace AutoFbot

/-- C5 counterexample: the regexes are applied with `re.match`, which
anchors only at the start, so an input that begins with a valid
private-link form but carries extra trailing characters yields the
prefix's parse instead of the failure the claim requires. -/
theorem c5_counterexample :
    parse_telegram_link "t.me/c/123/456x" =
      (some (ChanRef.cid (-100123)), some 456) ∧
    parse_telegram_link "t.me/c/123/456x" ≠ (none, none) := by
  decide

theorem stripLit_append : ∀ (p r : List Char), stripLit p (p ++ r) = some r := by
  intro p
  induction p with
  | nil => intro r; rfl
  | cons c cs ih => intro r; simp [stripLit, ih r]

theorem stripLit_ne_first (p q : Char) (ps cs : List Char) (hpq : p ≠ q) :
    stripLit (p :: ps) (q :: cs) = none := by
  simp [stripLit, hpq]

theorem stripScheme_t (l : List Char) : stripScheme ('t' :: l) = 't' :: l := by
  have h1 : stripLit "https://".toList ('t' :: l) = none :=
    stripLit_ne_first 'h' 't' _ _ (by decide)
  have h2 : stripLit "http://".toList ('t' :: l) = none :=
    stripLit_ne_first 'h' 't' _ _ (by decide)
  unfold stripScheme
  rw [h1, h2]

theorem takeWhile_append_all (p : Char → Bool) :
    ∀ (l r : List Char), (∀ c ∈ l, p c = true) →
      (∀ c, r.head? = some c → p c = false) →
      (l ++ r).takeWhile p = l := by
  intro l
  induction l with
  | nil =>
    intro r _ h2
    cases r with
    | nil => rfl
    | cons c cs =>
      rw [List.nil_append, List.takeWhile_cons, h2 c rfl]
      rfl
  | cons x xs ih =>
    intro r h1 h2
    rw [List.cons_append, List.takeWhile_cons, h1 x (by simp)]
    simp [ih r (fun c hc => h1 c (by simp [hc])) h2]

theorem dropWhile_append_all (p : Char → Bool) :
    ∀ (l r : List Char), (∀ c ∈ l, p c = true) →
      (∀ c, r.head? = some c → p c = false) →
      (l ++ r).dropWhile p = r := by
  intro l
  induction l with
  | nil =>
    intro r _ h2
    cases r with
    | nil => rfl
    | cons c cs =>
      rw [List.nil_append, List.dropWhile_cons, h2 c rfl]
      rfl
  | cons x xs ih =>
    intro r h1 h2
    rw [List.cons_append, List.dropWhile_cons, h1 x (by simp)]
    simp [ih r (fun c hc => h1 c (by simp [hc])) h2]

theorem span_append_split (p : Char → Bool) (l r : List Char)
    (h1 : ∀ c ∈ l, p c = true)
    (h2 : ∀ c, r.head? = some c → p c = false) :
    (l ++ r).span p = (l, r) := by
  rw [List.span_eq_take_drop, takeWhile_append_all p l r h1 h2,
    dropWhile_append_all p l r h1 h2]

theorem dropWhile_eq_self_of_head (p : Char → Bool) (l : List Char)
    (h : ∀ c, l.head? = some c → p c = false) : l.dropWhile p = l := by
  cases l with
  | nil => rfl
  | cons c cs =>
    rw [List.dropWhile_cons, h c rfl]
    rfl

theorem pyStrip_eq_self (l : List Char)
    (h : ∀ c ∈ l, isPyWs c = false) : pyStrip l = l := by
  unfold pyStrip
  rw [dropWhile_eq_self_of_head isPyWs l
      (fun c hc => h c (List.mem_of_mem_head? hc)),
    dropWhile_eq_self_of_head isPyWs l.reverse
      (fun c hc => h c (List.mem_reverse.mp
        (List.mem_of_mem_head? hc))),
    List.reverse_reverse]

theorem digit_not_ws (c : Char) (h : isAsciiDigit c = true) :
    isPyWs c = false := by
  simp only [isPyWs, Bool.or_eq_false_iff, beq_eq_false_iff_ne, ne_eq]
  refine ⟨⟨⟨⟨⟨?_, ?_⟩, ?_⟩, ?_⟩, ?_⟩, ?_⟩ <;> intro hc <;> rw [hc] at h <;>
    exact absurd h (by decide)

theorem matchPrivate_concat (a b t : List Char) (ha : a ≠ [])
    (hb : b ≠ []) (hda : ∀ c ∈ a, isAsciiDigit c = true)
    (hdb : ∀ c ∈ b, isAsciiDigit c = true)
    (ht : ∀ c, t.head? = some c → isAsciiDigit c = false) :
    matchPrivate ("t.me/c/".toList ++ (a ++ ('/' :: (b ++ t)))) =
      some (-(Int.ofNat (digitsToNat ("100".toList ++ a))),
            Int.ofNat (digitsToNat b)) := by
  have hscheme : stripScheme ("t.me/c/".toList ++ (a ++ ('/' :: (b ++ t)))) =
      "t.me/c/".toList ++ (a ++ ('/' :: (b ++ t))) := stripScheme_t _
  have hspanA : (a ++ ('/' :: (b ++ t))).span isAsciiDigit =
      (a, '/' :: (b ++ t)) :=
    span_append_split isAsciiDigit a ('/' :: (b ++ t)) hda
      (fun c hc => by
        rw [List.head?_cons] at hc
        cases hc
        decide)
  have hspanB : (b ++ t).span isAsciiDigit = (b, t) :=
    span_append_split isAsciiDigit b t hdb ht
  unfold matchPrivate
  rw [hscheme]
  cases a with
  | nil => exact absurd rfl ha
  | cons a0 a2 =>
    cases b with
    | nil => exact absurd rfl hb
    | cons b0 b2 =>
      simp only [stripLit_append "t.me/c/".toList
        ((a0 :: a2) ++ ('/' :: ((b0 :: b2) ++ t))), hspanA, hspanB]

/-- C5 (amended): the five regex forms are matched against a PREFIX of the
input (`re.match` anchors only at the start), so an input beginning with a
valid form followed by extra characters that do not extend the match
yields the prefix's parse, not a failure; the parser fails exactly when no
form matches a prefix of the stripped input and the whole input is not an
integer literal.  Part one states this for the private-link form with an
arbitrary non-digit-initial, whitespace-free trailer; part two states the
failure characterization. -/
theorem c5_prefix_match_semantics :
    (∀ a b t : List Char, a ≠ [] → b ≠ [] →
      (∀ c ∈ a, isAsciiDigit c = true) →
      (∀ c ∈ b, isAsciiDigit c = true) →
      (∀ c ∈ t, isPyWs c = false) →
      (∀ c, t.head? = some c → isAsciiDigit c = false) →
      parse_telegram_link (String.mk
          ("t.me/c/".toList ++ (a ++ ('/' :: (b ++ t))))) =
        (some (ChanRef.cid
          (-(Int.ofNat (digitsToNat ("100".toList ++ a))))),
         some (Int.ofNat (digitsToNat b)))) ∧
    (∀ link : String, matchPrivate (pyStrip link.toList) = none →
      matchPublic (pyStrip link.toList) = none →
      matchAt (pyStrip link.toList) = none →
      matchIdForm (pyStrip link.toList) = none →
      pyIntOpt (pyStrip link.toList) = none →
      parse_telegram_link link = (none, none)) := by
  constructor
  · intro a b t ha hb hda hdb htws ht
    have hws : ∀ c ∈ "t.me/c/".toList ++ (a ++ ('/' :: (b ++ t))),
        isPyWs c = false := by
      intro c hc
      rcases List.mem_append.mp hc with hc1 | hc1
      · exact (by decide : ∀ c ∈ "t.me/c/".toList, isPyWs c = false) c hc1
      · rcases List.mem_append.mp hc1 with hc2 | hc2
        · exact digit_not_ws c (hda c hc2)
        · rcases List.mem_cons.mp hc2 with hc3 | hc3
          · rw [hc3]
            decide
          · rcases List.mem_append.mp hc3 with hc4 | hc4
            · exact digit_not_ws c (hdb c hc4)
            · exact htws c hc4
    have hp : pyStrip (String.mk
        ("t.me/c/".toList ++ (a ++ ('/' :: (b ++ t))))).toList =
        "t.me/c/".toList ++ (a ++ ('/' :: (b ++ t))) :=
      pyStrip_eq_self _ hws
    have hm := matchPrivate_concat a b t ha hb hda hdb ht
    unfold parse_telegram_link
    simp only [hp, hm]
  · intro link h1 h2 h3 h4 h5
    unfold parse_telegram_link
    simp only [h1, h2, h3, h4, h5]

theorem c5_prefix_match_semantics_witness :
    parse_telegram_link (String.mk
        ("t.me/c/".toList ++ (['1'] ++ ('/' :: (['2'] ++ ['x']))))) =
      (some (ChanRef.cid
        (-(Int.ofNat (digitsToNat ("100".toList ++ ['1']))))),
       some (Int.ofNat (digitsToNat ['2']))) ∧
    parse_telegram_link "hello" = (none, none) :=
  ⟨c5_prefix_match_semantics.1 ['1'] ['2'] ['x'] (by decide) (by decide)
      (by decide) (by decide) (by decide) (by decide),
   c5_prefix_match_semantics.2 "hello" (by decide) (by decide) (by decide)
      (by decide) (by decide)⟩

end AutoFbot
